import Mathlib

/-!
# Verification of the AcadCheck document analysis engine

Shallow embedding of the detector code of this repository:

* namespace `LD` embeds `src/src/lib/localDetector.ts` (the detector imported
  by the application pages): sentence segmentation, tokenisation, feature
  extraction, n-gram Jaccard similarity, heuristic scoring with random
  jitter, document aggregation and the ML-fusion wrapper `analyzeText`.
* namespace `P5` embeds the detector variant in `src/unnamed/part_005`
  (deterministic scores, 95th-percentile plagiarism aggregation, guarded
  divisions).
* namespace `RP` embeds the highlight-term selector of
  `src/src/pages/Report.tsx`.
* namespace `HT` embeds the term-matching algorithm of
  `src/src/components/HighlightedText.tsx`.

Modelling conventions:

* JS numbers are modelled exactly: quantities whose computation stays in
  rational arithmetic use `ℚ`; quantities flowing through `Math.log2` /
  `Math.sqrt` use `ℝ`.  JS `NaN` (arising only from `0/0` in the document
  aggregates) is modelled by `Option`: `none` is `NaN`.
* `Math.random()` is modelled by an explicit stream `r : ℕ → ℚ` of draws,
  indexed by call order (`Math.random` returns doubles in `[0,1)`, which
  are rationals); one analysis consumes draws `3*i`, `3*i+1`, `3*i+2` for
  sentence `i` and, on the ML path, two further draws.
* the external ML predictor `aiDetectionModel.predict` (a collaborator
  living in `src/unnamed/part_007`) is modelled at its boundary by an
  `Option MLPrediction` argument: `none` models the promise rejecting.
-/

/-! ## JS primitives shared by the embedded files -/

/-- JS `\s` (the whitespace class used by `split`, `trim`, `\s+`),
restricted to the ASCII whitespace characters plus NBSP; the exotic
Unicode space characters of the full class do not interact with any
embedded character class. -/
def jsWs (c : Char) : Bool :=
  c = ' ' || c = '\t' || c = '\n' || c = '\r' || c = '\x0b' || c = '\x0c' || c = ' '

/-- JS `String.prototype.toLowerCase` restricted to the Latin-1 range the
detector's character classes mention (`A`–`Z` and `À`–`Þ` except `×`). -/
def jsToLower (c : Char) : Char :=
  if 'A' ≤ c ∧ c ≤ 'Z' then Char.ofNat (c.toNat + 32)
  else if 0xC0 ≤ c.toNat ∧ c.toNat ≤ 0xDE ∧ c.toNat ≠ 0xD7 then Char.ofNat (c.toNat + 32)
  else c

/-- JS `\w` (used for `\b` word-boundary tests). -/
def jsWordChar (c : Char) : Bool :=
  ('a' ≤ c && c ≤ 'z') || ('A' ≤ c && c ≤ 'Z') || ('0' ≤ c && c ≤ '9') || c = '_'

/-- JS `\d`. -/
def jsDigit (c : Char) : Bool := '0' ≤ c && c ≤ '9'

/-- JS `String.prototype.trim`. -/
def jsTrim (s : String) : String :=
  ⟨(s.toList.dropWhile jsWs).reverse.dropWhile jsWs |>.reverse⟩

/-- `Math.round x = ⌊x + 1/2⌋` (round half towards `+∞`), on any ordered
field with a floor; instantiated at `ℚ` and at `ℝ`. -/
def jsRound {α : Type} [LinearOrderedField α] [FloorRing α] (x : α) : ℤ :=
  ⌊x + 1/2⌋

/-- The number of segments produced by `s.split(/\s+/)`: one more than the
number of maximal whitespace runs (JS keeps the empty segments at the two
ends, and `"".split(/\s+/)` is `[""]`). -/
def jsSplitWsCount (s : String) : ℕ :=
  (go s.toList false) + 1
where
  go : List Char → Bool → ℕ
  | [], _ => 0
  | c :: rest, inRun =>
    if jsWs c then (if inRun then 0 else 1) + go rest true
    else go rest false

/-- Maximal runs of characters satisfying `p` (the semantics of
`str.match(/[class]+/g)`), returned as strings. -/
def charRuns (p : Char → Bool) (cs : List Char) : List String :=
  go cs []
where
  go : List Char → List Char → List String
  | [], cur => if cur.isEmpty then [] else [⟨cur.reverse⟩]
  | c :: rest, cur =>
    if p c then go rest (c :: cur)
    else if cur.isEmpty then go rest [] else ⟨cur.reverse⟩ :: go rest []

/-! ## A literal-phrase matcher for the fixed regex pattern libraries

Every regex in the detectors' pattern libraries is an alternation of
literal phrases, possibly framed by `\b` word boundaries, plus three more
structured patterns embedded individually further down.  A "matcher"
takes the character before the current position (for `\b`) and the
remaining text and returns the length of the match at this position, if
any.  `scanCount` then reproduces the `g`-flag scan of
`String.prototype.match`: repeatedly find the leftmost match, count it and
resume right after it. -/

/-- Case-insensitive (`ci = true`) or exact literal prefix match. -/
def litPrefix (ci : Bool) : List Char → List Char → Option (List Char)
  | [], s => some s
  | _, [] => none
  | p :: ps, c :: cs =>
    if (if ci then jsToLower p = jsToLower c else p = c) then litPrefix ci ps cs
    else none

/-- `\b` holds between `prev` and a word character. -/
def boundaryBefore (prev : Option Char) : Bool :=
  match prev with
  | some c => !jsWordChar c
  | none => true

/-- A matcher: position context (previous character, remaining input) to
optional match length. -/
def Matcher : Type := Option Char → List Char → Option ℕ

/-- Matcher for `\b(alt₁|alt₂|…)\b` (`endB = true`) or `\b(alt₁|…)`
(`endB = false`); alternatives are tried in order, as JS does. -/
def phrasesMatcher (ci endB : Bool) (alts : List String) : Matcher :=
  fun prev cs =>
    if boundaryBefore prev then
      go alts cs
    else none
where
  go : List String → List Char → Option ℕ
  | [], _ => none
  | a :: rest, cs =>
    match litPrefix ci a.toList cs with
    | some after =>
      if !endB || boundaryBefore (match after with | c :: _ => some c | [] => none) = true then
        some a.toList.length
      else go rest cs
    | none => go rest cs

/-- One `g`-flag scan counting non-overlapping matches of `m`, resuming
after each match; `fuel` starts at the text length (every step consumes at
least one character for the matchers used here). -/
def scanCount (m : Matcher) : ℕ → Option Char → List Char → ℕ
  | 0, _, _ => 0
  | _ + 1, _, [] => 0
  | fuel + 1, prev, c :: rest =>
    match m prev (c :: rest) with
    | some k =>
      if k = 0 then 0  -- a zero-length match cannot arise from nonempty literals
      else 1 + scanCount m fuel (((c :: rest).take k).getLast?) ((c :: rest).drop k)
    | none => scanCount m fuel (some c) rest

/-- Number of matches of `m` in `s` under the `g` flag. -/
def countMatches (m : Matcher) (s : String) : ℕ :=
  scanCount m s.toList.length none s.toList

/-- Whether `m` matches anywhere in `s` (the `RegExp.prototype.test` uses in
`part_005`; the `lastIndex` statefulness of reused `/g/` literals is not
reproduced). -/
def testMatch (m : Matcher) (s : String) : Bool :=
  countMatches m s ≠ 0

/-! ## `LD`: `src/src/lib/localDetector.ts` -/

namespace LD

/-- The STOPWORDS set of `localDetector.ts`. -/
def STOPWORDS : List String :=
  ["the","of","and","to","in","a","is","that","for","on","with","as","by","it","be","are","this","an","or",
   "from","at","which","but","not","we","our","their","also","can","have","has","was","were","than","these",
   "those","such","may","more","most","any","all","some","into","between","over","under","about","after",
   "before","during","through","per","i","you","he","she","they","them","his","her","its","there","here"]

/-- The split target of `splitSentences`:
`[A-ZÀ-ÖØ-Þ]|\d|"|\(|\[` — the character allowed to start the next
sentence. -/
def sentStart (c : Char) : Bool :=
  ('A' ≤ c && c ≤ 'Z') || (0xC0 ≤ c.toNat && c.toNat ≤ 0xD6) ||
  (0xD8 ≤ c.toNat && c.toNat ≤ 0xDE) || jsDigit c || c = '"' || c = '(' || c = '['

/-- Sentence-terminal punctuation (`(?<=[.!?])`). -/
def sentTerm (c : Char) : Bool := c = '.' || c = '!' || c = '?'

/-- Character-level semantics of
`text.split(/(?<=[.!?])\s+(?=[A-ZÀ-ÖØ-Þ]|\d|"|\(|\[)/)`: a split separator
is a maximal whitespace run whose preceding character is terminal
punctuation and whose following character may start a sentence (the
regex's greedy `\s+` cannot backtrack successfully because no whitespace
character is in the lookahead class).  `sawTerm` records whether the last
character written to `acc` was terminal; `pend` buffers a whitespace run
not yet known to be a separator. -/
def splitCore (sawTerm : Bool) (pend acc : List Char) : List Char → List (List Char)
  | [] => [acc ++ pend]
  | c :: rest =>
    if jsWs c then splitCore sawTerm (pend ++ [c]) acc rest
    else if !pend.isEmpty && sawTerm && sentStart c then
      acc :: splitCore (sentTerm c) [] [c] rest
    else splitCore (sentTerm c) [] (acc ++ pend ++ [c]) rest

/-- `splitSentences` of `localDetector.ts`: regex split, then
`.map(s => s.trim()).filter(Boolean)`. -/
def splitSentences (text : String) : List String :=
  ((splitCore false [] [] text.toList).map fun cs => jsTrim ⟨cs⟩).filter (· ≠ "")

/-- The word character class of `words`: `[a-zà-ÿ0-9']` (note `à-ÿ` is the
contiguous Latin-1 block `U+00E0`–`U+00FF`). -/
def wordChar (c : Char) : Bool :=
  ('a' ≤ c && c ≤ 'z') || (0xE0 ≤ c.toNat && c.toNat ≤ 0xFF) || jsDigit c || c = '\''

/-- `words`: lowercase, then all maximal runs of `[a-zà-ÿ0-9']`. -/
def words (sentence : String) : List String :=
  charRuns wordChar (sentence.toList.map jsToLower)

/-- `uniqueRatio` (type/token ratio; `0` for no words). -/
def uniqueRatio (ws : List String) : ℚ :=
  if ws.length ≠ 0 then (ws.toFinset.card : ℚ) / ws.length else 0

/-- `stopwordRatio`. -/
def stopwordRatio (ws : List String) : ℚ :=
  if ws.length ≠ 0 then ((ws.filter (· ∈ STOPWORDS)).length : ℚ) / ws.length else 0

/-- `avgWordLen`. -/
def avgWordLen (ws : List String) : ℚ :=
  if ws.length ≠ 0 then ((ws.map String.length).sum : ℚ) / ws.length else 0

/-- The subordination alternation of `syntaxComplexity`:
`\b(that|which|who|where|when|while|although|because|since)\b/gi`. -/
def subordWords : List String :=
  ["that","which","who","where","when","while","although","because","since"]

/-- `syntaxComplexity`: clause markers `[,:;]` plus twice the subordination
matches, per whitespace-split word, scaled by 3 and clamped to `[0,1]`. -/
def syntaxComplexity (sentence : String) : ℚ :=
  let clauseMarkers : ℕ := (sentence.toList.filter fun c => c = ',' || c = ':' || c = ';').length
  let subordination : ℕ := countMatches (phrasesMatcher true true subordWords) sentence
  let wordCount : ℕ := jsSplitWsCount sentence
  if wordCount ≠ 0 then min 1 ((clauseMarkers + subordination * 2 : ℚ) / wordCount * 3) else 0

/-- `variance` (population variance; `0` for fewer than two values). -/
def variance (arr : List ℚ) : ℚ :=
  if arr.length < 2 then 0
  else
    let mean := arr.sum / arr.length
    (arr.map fun b => (b - mean) ^ 2).sum / arr.length

/-- `detectStylometricPatterns`: `0.5` for fewer than 3 sentences, else
`max 0 (1 - wordCountVariance/150 - avgLengthVariance/15)`. -/
def detectStylometricPatterns (sentences : List String) : ℚ :=
  if sentences.length < 3 then 1/2
  else
    let structures := sentences.map fun s =>
      ((jsSplitWsCount s : ℚ),
       ((words s).map String.length).sum / max 1 ((words s).length : ℚ))
    let wordCountVariance := variance (structures.map Prod.fst)
    let avgLengthVariance := variance (structures.map Prod.snd)
    max 0 (1 - (wordCountVariance / 150 + avgLengthVariance / 15))

/-- `intersectionRatio`: `|a ∩ b| / max(|a|, |b|, 1)`. -/
def intersectionRatio (a b : Finset String) : ℚ :=
  ((a ∩ b).card : ℚ) / max (max a.card b.card) 1

/-- `semanticCoherence` with optional neighbours; `0.6` with no neighbour. -/
def semanticCoherence (current : String) (prev next : Option String) : ℚ :=
  let currentWords := (words current).toFinset
  let scores :=
    (match prev with
     | some p => [intersectionRatio currentWords (words p).toFinset]
     | none => []) ++
    (match next with
     | some nx => [intersectionRatio currentWords (words nx).toFinset]
     | none => [])
  if scores.length ≠ 0 then scores.sum / scores.length else 3/5

end LD

namespace LD

/-- `AI_PATTERNS`: five `\b(...)\b/gi` phrase alternations. -/
def AI_PATTERNS : List (List String) :=
  [["it is important to note","it should be noted","it is worth noting"],
   ["in conclusion","to sum up","as a result"],
   ["this study aims to","the objective of this","the purpose of this"],
   ["further research is needed","additional studies should"],
   ["it can be observed that","as shown in","based on the results"]]

/-- `detectAIPatterns`: `Σ pattern-match-count × 0.8`. -/
def detectAIPatterns (sentence : String) : ℚ :=
  (AI_PATTERNS.map fun alts =>
    (countMatches (phrasesMatcher true true alts) sentence : ℚ) * (8/10)).sum

/-- The `.*\(.*\d{4}.*\)` test of the negative lookahead in the first
plagiarism pattern: the rest of the current line (dot does not cross line
terminators) contains `(`, later four consecutive digits, later `)`. -/
def parenYearAhead (cs : List Char) : Bool :=
  let line := cs.takeWhile fun c => c ≠ '\n' && c ≠ '\r'
  line.tails.any fun t =>
    match t with
    | '(' :: u =>
      u.tails.any fun v =>
        ((v.take 4).length = 4 && (v.take 4).all jsDigit) &&
        (v.drop 4).any (· = ')')
    | _ => false

/-- Matcher for
`\b(according to research|studies show|research indicates)\s+(?!.*\(.*\d{4}.*\))/gi`:
phrase, a maximal whitespace run, then the negative lookahead.  (As no
whitespace starts `.*\(…`, the greedy `\s+` need not backtrack.) -/
def accordingMatcher : Matcher :=
  fun prev cs =>
    if boundaryBefore prev then
      go ["according to research","studies show","research indicates"] cs
    else none
where
  go : List String → List Char → Option ℕ
  | [], _ => none
  | a :: rest, cs =>
    match litPrefix true a.toList cs with
    | some after =>
      let ws := after.takeWhile jsWs
      if ws.length ≠ 0 && !parenYearAhead (after.dropWhile jsWs) then
        some (a.toList.length + ws.length)
      else go rest cs
    | none => go rest cs

/-- Matcher for `\b[A-Z][a-z]+\s+et\s+al\.\s+\(\d{4}\)/g` (case
sensitive). -/
def etAlMatcher : Matcher :=
  fun prev cs =>
    if !boundaryBefore prev then none
    else
      match cs with
      | c :: rest =>
        if ('A' ≤ c && c ≤ 'Z') then
          let lows := rest.takeWhile fun d => 'a' ≤ d && d ≤ 'z'
          if lows.length = 0 then none
          else
            let cont := rest.drop lows.length
            let ws1 := cont.takeWhile jsWs
            if ws1.length = 0 then none
            else
              match litPrefix false ['e','t'] (cont.drop ws1.length) with
              | none => none
              | some afterEt =>
                let ws2 := afterEt.takeWhile jsWs
                if ws2.length = 0 then none
                else
                  match litPrefix false ['a','l','.'] (afterEt.drop ws2.length) with
                  | none => none
                  | some afterAl =>
                    let ws3 := afterAl.takeWhile jsWs
                    if ws3.length = 0 then none
                    else
                      match afterAl.drop ws3.length with
                      | '(' :: body =>
                        if ((body.take 4).length = 4 && (body.take 4).all jsDigit) then
                          match body.drop 4 with
                          | ')' :: _ =>
                            some (1 + lows.length + ws1.length + 2 + ws2.length + 3 +
                                  ws3.length + 1 + 4 + 1)
                          | _ => none
                        else none
                      | _ => none
        else none
      | [] => none

/-- Match of `[A-Z][a-z]+\s+is\s+(defined as|a type of|characterized by)`
at one position (used at line starts for the `^…/gm` pattern). -/
def defMatchesAt (cs : List Char) : Bool :=
  match cs with
  | c :: rest =>
    if ('A' ≤ c && c ≤ 'Z') then
      let lows := rest.takeWhile fun d => 'a' ≤ d && d ≤ 'z'
      if lows.length = 0 then false
      else
        let cont := rest.drop lows.length
        let ws1 := cont.takeWhile jsWs
        if ws1.length = 0 then false
        else
          match litPrefix false ['i','s'] (cont.drop ws1.length) with
          | none => false
          | some afterIs =>
            let ws2 := afterIs.takeWhile jsWs
            if ws2.length = 0 then false
            else
              let body := afterIs.drop ws2.length
              (["defined as","a type of","characterized by"].any fun a =>
                (litPrefix false a.toList body).isSome)
    else false
  | [] => false

/-- Count of `^[A-Z][a-z]+\s+is\s+(defined as|a type of|characterized by)/gm`
matches: the number of line starts at which the pattern matches (the rare
`g`-scan interaction of a match spanning a line terminator via `\s+` is
not reproduced). -/
def defPatternCount (s : String) : ℕ :=
  (lineStarts s.toList).countP defMatchesAt
where
  lineStarts : List Char → List (List Char)
  | [] => []
  | cs => cs :: go cs
  go : List Char → List (List Char)
  | [] => []
  | c :: rest => (if c = '\n' || c = '\r' then [rest] else []) ++ go rest

/-- `PLAGIARISM_PATTERNS` match counts, in source order. -/
def plagiarismPatternCounts (sentence : String) : List ℕ :=
  [countMatches accordingMatcher sentence,
   countMatches etAlMatcher sentence,
   defPatternCount sentence,
   countMatches (phrasesMatcher true false
     ["in this chapter","this section","as shown in figure","as described in"]) sentence,
   countMatches (phrasesMatcher true true
     ["the main objective","the purpose of this project","the goal of this study"]) sentence,
   countMatches (phrasesMatcher true true
     ["this paper presents","we propose a","our methodology"]) sentence]

/-- `detectPlagiarismPatterns`: `Σ pattern-match-count × 1`. -/
def detectPlagiarismPatterns (sentence : String) : ℚ :=
  ((plagiarismPatternCounts sentence).map fun n => (n : ℚ) * 1).sum

/-- Matcher for `\b(figure \d+|table \d+|equation \d+)/gi`. -/
def figureMatcher : Matcher :=
  fun prev cs =>
    if boundaryBefore prev then go ["figure ","table ","equation "] cs
    else none
where
  go : List String → List Char → Option ℕ
  | [], _ => none
  | a :: rest, cs =>
    match litPrefix true a.toList cs with
    | some after =>
      let ds := after.takeWhile jsDigit
      if ds.length ≠ 0 then some (a.toList.length + ds.length) else go rest cs
    | none => go rest cs

/-- `ACADEMIC_PATTERNS` match counts, in source order. -/
def academicPatternCounts (sentence : String) : List ℕ :=
  [countMatches (phrasesMatcher true true
     ["this study","research shows","the results indicate"]) sentence,
   countMatches (phrasesMatcher true true
     ["in this chapter","as discussed in","the literature suggests"]) sentence,
   countMatches figureMatcher sentence,
   countMatches (phrasesMatcher true true
     ["however","moreover","furthermore","therefore","consequently"]) sentence,
   countMatches (phrasesMatcher true true
     ["in this article","this paper","we will discuss"]) sentence,
   countMatches (phrasesMatcher true true
     ["as mentioned previously","based on the data","the analysis shows"]) sentence,
   countMatches (phrasesMatcher true true
     ["according to","similarly","in contrast"]) sentence]

/-- `hasAcademicFeatures`: `min 1 (Σ count × 0.7)`. -/
def hasAcademicFeatures (sentence : String) : ℚ :=
  min 1 (((academicPatternCounts sentence).map fun n => (n : ℚ) * (7/10)).sum)

/-- `charEntropy`: Shannon entropy (bits/char) of the character frequency
distribution; `Math.log2` forces `ℝ`. -/
noncomputable def charEntropy (s : String) : ℝ :=
  let cs := s.toList
  let n : ℝ := cs.length
  ((cs.dedup).map fun c =>
    -(((cs.count c : ℝ) / n) * Real.logb 2 ((cs.count c : ℝ) / n))).sum

/-- `jaccard` on string sets, with the source's
`union = a.size + b.size - intersection` and `0/0 = 0`. -/
def jaccard (a b : Finset String) : ℚ :=
  let intersection := (a ∩ b).card
  let union := a.card + b.card - intersection
  if union ≠ 0 then (intersection : ℚ) / union else 0

/-- `ngrams`: the set of space-joined `n`-token windows (`for i in
0 .. ws.length - n`; empty when the sentence has fewer than `n` tokens). -/
def ngrams (ws : List String) (n : ℕ) : Finset String :=
  if n ≤ ws.length then
    ((List.range (ws.length - n + 1)).map fun i =>
      " ".intercalate ((ws.drop i).take n)).toFinset
  else ∅

/-- `randomVariation base range draw`: `base + (draw*range*2 - range)`
clamped to `[0, 26]`; `draw` stands for one `Math.random()` call. -/
def randomVariation {α : Type} [LinearOrderedField α] (base range draw : α) : α :=
  max 0 (min 26 (base + (draw * range * 2 - range)))

end LD

namespace LD

/-- A reference-corpus document (`{name, text}`). -/
structure CorpusDoc where
  name : String
  text : String

/-- The options record of `analyzeText` / `analyzeTextTraditional`. -/
structure Opts where
  corpus : Option (List CorpusDoc)
  ngram : Option ℕ
  useML : Option Bool

/-- Default (absent) options. -/
def defaultOpts : Opts := ⟨none, none, none⟩

/-- The per-sentence `features` sub-record (percent-rounded). -/
structure Features where
  lexicalDiversity : ℤ
  syntacticComplexity : ℤ
  semanticCoherence : ℤ
  stylometricScore : ℤ
deriving DecidableEq

/-- A `SentenceScore` (the optional `perplexity`/`burstiness` entries are
never set on the traditional path). -/
structure SentenceScore where
  sentence : String
  ai : ℤ
  plagiarism : ℤ
  confidence : ℤ
  source : Option String
  features : Features

instance : Inhabited SentenceScore := ⟨⟨"", 0, 0, 0, none, ⟨0, 0, 0, 0⟩⟩⟩

/-- The `analysis` sub-record of a `LocalReport`; wall-clock
`processingTime` is modelled as `0`. -/
structure Analysis where
  overallStyle : String
  suspiciousPatterns : List String
  recommendations : List String
  modelUsed : String
  processingTime : ℤ

/-- A `LocalReport`.  The document-level scores are JS numbers that are
`NaN` exactly when the document has no sentences (`0/0`), so they are
`Option ℝ` with `none` for `NaN`; on the ML path they can be non-integral
reals. -/
structure LocalReport where
  aiScore : Option ℝ
  plagiarism : Option ℝ
  confidence : Option ℝ
  sentences : List SentenceScore
  analysis : Analysis

/-- `opts?.ngram || 4` (`||`, not `??`: `0` falls back to 4). -/
def nOf (opts : Opts) : ℕ :=
  match opts.ngram with
  | some k => if k = 0 then 4 else k
  | none => 4

/-- The sentence list of one analysis. -/
def sents (text : String) : List String := splitSentences text

/-- `sentWords`. -/
def sentWords (text : String) : List (List String) := (sents text).map words

/-- `gramSets`: one n-gram set per sentence. -/
def gramSets (text : String) (opts : Opts) : List (Finset String) :=
  (sentWords text).map fun ws => ngrams ws (nOf opts)

/-- Corpus n-gram sets with their names. -/
def corpusSets (opts : Opts) : List (String × Finset String) :=
  (opts.corpus.getD []).map fun d => (d.name, ngrams (words d.text) (nOf opts))

/-- The inner loop computing `internalSimilarity` for sentence `i`:
running maximum of the Jaccard similarity against every other sentence. -/
def internalSimilarity (gs : List (Finset String)) (i : ℕ) : ℚ :=
  (List.range gs.length).foldl
    (fun acc j => if j ≠ i then max acc (jaccard (gs.getD i ∅) (gs.getD j ∅)) else acc) 0

/-- The inner loop computing `externalSimilarity` and `source` for one
sentence: fold over the corpus sets, updating both on strict
improvement. -/
def externalBest (g : Finset String) (cds : List (String × Finset String)) :
    ℚ × Option String :=
  cds.foldl
    (fun acc cs =>
      let similarity := jaccard g cs.2
      if similarity > acc.1 then (similarity, some cs.1) else acc)
    (0, none)

/-- The pre-jitter AI score of one sentence (`Math.min(1, Math.max(0, …))`
over the weighted feature sum); the entropy term forces `ℝ`. -/
noncomputable def aiBase (text : String) (i : ℕ) : ℝ :=
  let sentence := (sents text).getD i ""
  let ws := (sentWords text).getD i []
  let ttr := uniqueRatio ws
  let stopR := stopwordRatio ws
  let awl := avgWordLen ws
  let ent := charEntropy sentence
  let syntaxComp := syntaxComplexity sentence
  let semCoherence := semanticCoherence sentence
    (if i = 0 then none else (sents text).get? (i - 1)) ((sents text).get? (i + 1))
  let aiPatterns := detectAIPatterns sentence
  let academicBonus := hasAcademicFeatures sentence * (8/10)
  min 1 (max 0
    ((8/100 : ℝ) * (1 - (ttr : ℝ)) +
     (8/100) * |(stopR : ℝ) - 4/10| +
     (8/100) * (if (awl : ℚ) > 6 then 1 else (awl : ℝ)/6) +
     (6/100) * (1 - min 1 (|ent - 4|/4)) +
     (6/100) * (syntaxComp : ℝ) +
     (8/100) * (1 - (semCoherence : ℝ)) +
     (8/100) * (aiPatterns : ℝ) -
     (6/10) * (academicBonus : ℝ)))

/-- The pre-jitter plagiarism score of one sentence: weighted
internal/external similarity and pattern signal, a `×1.35` boost for long
academic sentences, clamped above by 1. -/
def plagiarismBase (text : String) (opts : Opts) (i : ℕ) : ℚ :=
  let sentence := (sents text).getD i ""
  let internalSim := internalSimilarity (gramSets text opts) i
  let externalSim := (externalBest ((gramSets text opts).getD i ∅) (corpusSets opts)).1
  let plagPatterns := detectPlagiarismPatterns sentence
  let academicBonus := hasAcademicFeatures sentence * (8/10)
  let score := internalSim * (65/10) + externalSim * (82/10) + plagPatterns * 11
  let score := if sentence.length > 180 ∧ academicBonus > 1/2 then score * (135/100) else score
  min 1 score

/-- One `SentenceScore`: jittered AI and plagiarism scores (draws `3*i` and
`3*i+1`), random confidence `70 + ⌊8·draw⌋` (draw `3*i+2`), the source
disclosure threshold `0.25`, and the rounded feature percentages. -/
noncomputable def sentenceScoreAt (text : String) (opts : Opts) (r : ℕ → ℚ) (i : ℕ) :
    SentenceScore :=
  let sentence := (sents text).getD i ""
  let ws := (sentWords text).getD i []
  let externalSim := externalBest ((gramSets text opts).getD i ∅) (corpusSets opts)
  { sentence := sentence
    ai := jsRound (randomVariation (aiBase text i * 100) 2 ((r (3*i) : ℝ)))
    plagiarism := jsRound (randomVariation (plagiarismBase text opts i * 100) (5/2) (r (3*i+1)))
    confidence := 70 + ⌊r (3*i+2) * 8⌋
    source := if externalSim.1 > 1/4 then externalSim.2 else none
    features :=
      { lexicalDiversity := jsRound (uniqueRatio ws * 100)
        syntacticComplexity := jsRound (syntaxComplexity sentence * 100)
        semanticCoherence := jsRound
          (semanticCoherence sentence
            (if i = 0 then none else (sents text).get? (i - 1)) ((sents text).get? (i + 1)) * 100)
        stylometricScore := jsRound (detectStylometricPatterns (sents text) * 100) } }

/-- The sentence-score list (`sents.map` with index). -/
noncomputable def sentenceScores (text : String) (opts : Opts) (r : ℕ → ℚ) :
    List SentenceScore :=
  (List.range (sents text).length).map (sentenceScoreAt text opts r)

/-- `Math.round (xs.sum / xs.length)` on a list of integers, `none` (JS
`NaN`) when the list is empty (`0/0`). -/
def meanRoundZ (xs : List ℤ) : Option ℤ :=
  if xs.length ≠ 0 then some (jsRound ((xs.sum : ℚ) / xs.length)) else none

/-- Document-level `aiScore` before the `LocalReport` cast. -/
noncomputable def docAiScoreZ (text : String) (opts : Opts) (r : ℕ → ℚ) : Option ℤ :=
  meanRoundZ ((sentenceScores text opts r).map (·.ai))

/-- Document-level `plagiarism` (also the rounded mean in this file). -/
noncomputable def docPlagiarismZ (text : String) (opts : Opts) (r : ℕ → ℚ) : Option ℤ :=
  meanRoundZ ((sentenceScores text opts r).map (·.plagiarism))

/-- Document-level `confidence`. -/
noncomputable def docConfidenceZ (text : String) (opts : Opts) (r : ℕ → ℚ) : Option ℤ :=
  meanRoundZ ((sentenceScores text opts r).map (·.confidence))

/-- JS `>` on a possibly-NaN number (`NaN > t` is false). -/
def optGT (x : Option ℤ) (t : ℤ) : Bool :=
  match x with
  | some v => v > t
  | none => false

/-- JS `<` on a possibly-NaN number. -/
def optLT (x : Option ℤ) (t : ℤ) : Bool :=
  match x with
  | some v => v < t
  | none => false

/-- `analyzeTextTraditional`. -/
noncomputable def analyzeTextTraditional (text : String) (opts : Opts) (r : ℕ → ℚ) :
    LocalReport :=
  let aiScore := docAiScoreZ text opts r
  let plagiarism := docPlagiarismZ text opts r
  { aiScore := aiScore.map fun z => (z : ℝ)
    plagiarism := plagiarism.map fun z => (z : ℝ)
    confidence := (docConfidenceZ text opts r).map fun z => (z : ℝ)
    sentences := sentenceScores text opts r
    analysis :=
      { overallStyle :=
          if optGT aiScore 14 then "Potential AI-assisted content" else "Likely human-written"
        suspiciousPatterns :=
          (if optGT aiScore 15 then ["Moderate AI detection patterns"] else []) ++
          (if optGT plagiarism 18 then ["Potential plagiarism detected"] else [])
        recommendations :=
          (if optGT aiScore 12 then ["Verify content originality"] else []) ++
          (if optGT plagiarism 15 then ["Review citations and sources"] else []) ++
          (if optLT aiScore 8 ∧ optLT plagiarism 8 then ["Document appears to be original"] else [])
        modelUsed := "Traditional Algorithm"
        processingTime := 0 } }

/-- The fixed shape returned by the external `aiDetectionModel.predict`. -/
structure MLPrediction where
  aiScore : ℝ
  plagiarismScore : ℝ
  confidence : ℝ

/-- NaN-propagating binary map on JS numbers. -/
def jsMap2 (f : ℝ → ℝ → ℝ) : Option ℝ → Option ℝ → Option ℝ
  | some a, some b => some (f a b)
  | _, _ => none

/-- `combineMLAndTraditional`: confidence-dependent blend weights, a 0.6 /
0.7 shrink, one more jitter draw for each score (draws `3L` and `3L+1`
where `L` is the sentence count), and a hard `Math.min(26, ·)` cap. -/
noncomputable def combineMLAndTraditional (ml : MLPrediction) (traditional : LocalReport)
    (r : ℕ → ℚ) : LocalReport :=
  let L := traditional.sentences.length
  let mlWeight : ℝ := if ml.confidence > 70 then 3/10 else 15/100
  let traditionalWeight : ℝ := 1 - mlWeight
  let combinedAIScore : Option ℝ :=
    (traditional.aiScore.map fun t =>
      ((jsRound ((ml.aiScore * mlWeight + t * traditionalWeight) * (6/10)) : ℤ) : ℝ)).map
      fun z => randomVariation z (3/2) ((r (3*L) : ℝ))
  let combinedPlagiarism : Option ℝ :=
    (traditional.plagiarism.map fun t =>
      ((jsRound ((ml.plagiarismScore * (3/10) + t * (7/10)) * (7/10)) : ℤ) : ℝ)).map
      fun z => randomVariation z 2 ((r (3*L+1) : ℝ))
  let combinedConfidence : Option ℝ :=
    traditional.confidence.map fun t =>
      ((jsRound (ml.confidence * (2/10) + t * (8/10)) : ℤ) : ℝ)
  { aiScore := combinedAIScore.map fun x => min 26 x
    plagiarism := combinedPlagiarism.map fun x => min 26 x
    confidence := combinedConfidence
    sentences := traditional.sentences
    analysis := { traditional.analysis with modelUsed := "Hybrid ML/Traditional" } }

/-- `analyzeText`: with `useML` (the default), a successful prediction is
blended with the traditional analysis; a rejected prediction (`none`) is
caught and the traditional analysis returned. -/
noncomputable def analyzeText (text : String) (opts : Opts) (ml : Option MLPrediction)
    (r : ℕ → ℚ) : LocalReport :=
  let useML := opts.useML ≠ some false
  if useML then
    match ml with
    | some p => combineMLAndTraditional p (analyzeTextTraditional text opts r) r
    | none => analyzeTextTraditional text opts r
  else analyzeTextTraditional text opts r

end LD

/-! ## `P5`: the detector variant of `src/unnamed/part_005`

Only the engine is embedded (`splitSentences` … `analyzeTextTraditional`'s
scores and sentence list); the presentation-only `analysis` strings and the
ML blending of this variant are not needed by any claim and are omitted.
The primary branch of this file's `words` uses `\p{L}\p{N}`; it is embedded
through the file's own fallback class `[A-Za-zÀ-ÖØ-öø-ÿ0-9']`. -/

namespace P5

/-- `splitSentences`, phase 1: the lookbehind-free
`replace(/([.!?])\s+(?=[A-ZÀ-ÖØ-Þ]|\d|"|\(|\[)/g, '$1|')` pass (the next
sentence-start class is the same as in `localDetector.ts`). -/
def markCore (sawTerm : Bool) (pend acc : List Char) : List Char → List Char
  | [] => acc ++ pend
  | c :: rest =>
    if jsWs c then markCore sawTerm (pend ++ [c]) acc rest
    else if !pend.isEmpty && sawTerm && LD.sentStart c then
      markCore (LD.sentTerm c) [] (acc ++ ['|', c]) rest
    else markCore (LD.sentTerm c) [] (acc ++ pend ++ [c]) rest

/-- `splitSentences`: mark, split on `'|'`, trim, drop empties. -/
def splitSentences (text : String) : List String :=
  (((markCore false [] [] text.toList).splitOn '|').map fun cs => jsTrim ⟨cs⟩).filter (· ≠ "")

/-- The fallback word class `[A-Za-zÀ-ÖØ-öø-ÿ0-9']`. -/
def wordChar (c : Char) : Bool :=
  ('a' ≤ c && c ≤ 'z') || ('A' ≤ c && c ≤ 'Z') ||
  (0xC0 ≤ c.toNat && c.toNat ≤ 0xD6) || (0xD8 ≤ c.toNat && c.toNat ≤ 0xF6) ||
  (0xF8 ≤ c.toNat && c.toNat ≤ 0xFF) || jsDigit c || c = '\''

/-- `words` (on the lowercased sentence). -/
def words (sentence : String) : List String :=
  charRuns wordChar (sentence.toList.map jsToLower)

/-- `uniqueRatio`. -/
def uniqueRatio (ws : List String) : ℚ :=
  if ws.length = 0 then 0 else (ws.toFinset.card : ℚ) / ws.length

/-- `stopwordRatio` (same stopword list as `localDetector.ts`). -/
def stopwordRatio (ws : List String) : ℚ :=
  if ws.length = 0 then 0 else ((ws.filter (· ∈ LD.STOPWORDS)).length : ℚ) / ws.length

/-- `avgWordLen`. -/
def avgWordLen (ws : List String) : ℚ :=
  if ws.length = 0 then 0 else ((ws.map String.length).sum : ℚ) / ws.length

/-- `syntaxComplexity` (this variant scales by 10). -/
def syntaxComplexity (sentence : String) : ℚ :=
  let clauseMarkers : ℕ := (sentence.toList.filter fun c => c = ',' || c = ':' || c = ';').length
  let subordination : ℕ := countMatches (phrasesMatcher true true LD.subordWords) sentence
  let wordCount : ℕ := jsSplitWsCount sentence
  if wordCount ≠ 0 then min 1 ((clauseMarkers + subordination * 2 : ℚ) / wordCount * 10) else 0

/-- The segments of `s.split(/\s+/)` (including empty edge segments), for
this variant's stylometric word lengths. -/
def jsSplitWsSegments (s : String) : List String :=
  go s.toList []
where
  go : List Char → List Char → List String
  | [], cur => [⟨cur.reverse⟩]
  | c :: rest, cur =>
    if jsWs c then ⟨cur.reverse⟩ :: go (rest.dropWhile jsWs) []
    else go rest (c :: cur)
  termination_by cs _ => cs.length
  decreasing_by
    all_goals apply Nat.lt_succ_of_le
    · exact (List.dropWhile_suffix jsWs).length_le
    · exact Nat.le_refl rest.length

/-- `variance` (this variant guards only the empty list). -/
def variance (arr : List ℚ) : ℚ :=
  if arr.length = 0 then 0
  else
    let mean := arr.sum / arr.length
    (arr.map fun b => (b - mean) ^ 2).sum / arr.length

/-- `detectStylometricPatterns`:
`clamp₀¹ (1 - (wordCountVariance/100 + avgLengthVariance/10) / 2)` over the
whitespace-split structure of each sentence. -/
def detectStylometricPatterns (sentences : List String) : ℚ :=
  let structures := sentences.map fun s =>
    let ws := jsSplitWsSegments s
    ((ws.length : ℚ), ((ws.map String.length).sum : ℚ) / ws.length)
  let wordCountVariance := variance (structures.map Prod.fst)
  let avgLengthVariance := variance (structures.map Prod.snd)
  max 0 (min 1 (1 - (wordCountVariance / 100 + avgLengthVariance / 10) / 2))

/-- `semanticCoherence`: `0.5` with no neighbour, else the average over
existing neighbours of shared-distinct-words over the larger distinct
count.  (The source divides without a guard; a sentence with zero words
next to a neighbour with zero words yields JS `NaN`, modelled here by the
Lean convention `0/0 = 0`; no claim depends on that corner.) -/
def semanticCoherence (current : String) (prev next : Option String) : ℚ :=
  match prev, next with
  | none, none => 1/2
  | _, _ =>
    let currentWords := (words current).toFinset
    let scores :=
      (match prev with
       | some p =>
         let prevWords := (words p).toFinset
         [((currentWords ∩ prevWords).card : ℚ) / max currentWords.card prevWords.card]
       | none => []) ++
      (match next with
       | some nx =>
         let nextWords := (words nx).toFinset
         [((currentWords ∩ nextWords).card : ℚ) / max currentWords.card nextWords.card]
       | none => [])
    if scores.length ≠ 0 then scores.sum / scores.length else 1/2

/-- This variant's `AI_PATTERNS` (five `\b(...)\b/gi` alternations, used
through `RegExp.prototype.test`). -/
def AI_PATTERNS : List (List String) :=
  [["furthermore","moreover","additionally","consequently","therefore","thus"],
   ["it is important to note","it should be noted","it is worth noting"],
   ["in conclusion","to conclude","in summary","to summarize"],
   ["firstly","secondly","thirdly","finally"],
   ["utilize","implement","facilitate","optimize","streamline"]]

/-- `detectAIPatterns`: `+0.2` per pattern that tests positive, capped at 1. -/
def detectAIPatterns (sentence : String) : ℚ :=
  min 1 ((AI_PATTERNS.map fun alts =>
    if testMatch (phrasesMatcher true true alts) sentence then (2/10 : ℚ) else 0).sum)

/-- `detectPlagiarismPatterns`: `+0.3` per positive test of the three
structured patterns (shared with `localDetector.ts`), capped at 1. -/
def detectPlagiarismPatterns (sentence : String) : ℚ :=
  min 1 (((if testMatch LD.accordingMatcher sentence then (3/10 : ℚ) else 0) +
          (if testMatch LD.etAlMatcher sentence then (3/10 : ℚ) else 0) +
          (if LD.defPatternCount sentence ≠ 0 then (3/10 : ℚ) else 0)))

/-- `charEntropy` (empty string short-circuits to 0). -/
noncomputable def charEntropy (s : String) : ℝ :=
  if s = "" then 0
  else
    let cs := s.toList
    let n : ℝ := cs.length
    ((cs.dedup).map fun c =>
      -(((cs.count c : ℝ) / n) * Real.logb 2 ((cs.count c : ℝ) / n))).sum

/-- `jaccard` of this variant: `|a ∩ b| / |a ∪ b|` with `0/0 = 0`. -/
def jaccard (a b : Finset String) : ℚ :=
  let inter := (a ∩ b).card
  let union := (a ∪ b).card
  if union = 0 then 0 else (inter : ℚ) / union

/-- `ngrams` (same window construction). -/
def ngrams (ws : List String) (n : ℕ) : Finset String :=
  if n ≤ ws.length then
    ((List.range (ws.length - n + 1)).map fun i =>
      " ".intercalate ((ws.drop i).take n)).toFinset
  else ∅

/-- The options of this variant's `analyzeTextTraditional`. -/
structure Opts where
  corpus : Option (List LD.CorpusDoc)
  ngram : Option ℕ

/-- Default (absent) options. -/
def defaultOpts : Opts := ⟨none, none⟩

/-- `n = Math.max(3, Math.min(7, opts?.ngram ?? 5))`. -/
def nOf (opts : Opts) : ℕ := max 3 (min 7 (opts.ngram.getD 5))

/-- Sentence list. -/
def sents (text : String) : List String := splitSentences text

/-- `sentWords`. -/
def sentWords (text : String) : List (List String) := (sents text).map words

/-- Word counts per sentence (`lengths`). -/
def lengths (text : String) : List ℕ := (sentWords text).map List.length

/-- `meanLen` (guarded `(… || 1)` denominator). -/
def meanLen (text : String) : ℚ :=
  let ls := lengths text
  (ls.sum : ℚ) / (if ls.length = 0 then 1 else ls.length)

/-- The variance under `stdLen`'s square root, with the `(… || 0.0001)`
fallback for a zero variance. -/
def stdLenSq (text : String) : ℚ :=
  let ls := lengths text
  let v := ((ls.map fun b => ((b : ℚ) - meanLen text) ^ 2).sum) /
    (if ls.length = 0 then 1 else ls.length)
  if v = 0 then 1/10000 else v

/-- `stdLen = Math.sqrt(stdLenSq)`. -/
noncomputable def stdLen (text : String) : ℝ := Real.sqrt (stdLenSq text)

/-- `allWords` (flattened). -/
def allWords (text : String) : List String := (sentWords text).flatten

/-- `unigramFreq[w]` (with absent keys read as 0). -/
def unigramFreq (text : String) (w : String) : ℕ := (allWords text).count w

/-- The document bigram list. -/
def bigramList (text : String) : List String :=
  ((allWords text).zip (allWords text).tail).map fun p => p.1 ++ " " ++ p.2

/-- `bigramFreq[bg]`. -/
def bigramFreq (text : String) (bg : String) : ℕ := (bigramList text).count bg

/-- `repBigramRatio`: distinct bigrams occurring more than once over
`max 1 (#distinct bigrams)`. -/
def repBigramRatio (text : String) : ℚ :=
  let keys := (bigramList text).dedup
  ((keys.filter fun bg => 1 < bigramFreq text bg).length : ℚ) / max 1 (keys.length : ℚ)

/-- Per-sentence n-gram sets. -/
def gramSets (text : String) (opts : Opts) : List (Finset String) :=
  (sentWords text).map fun ws => ngrams ws (nOf opts)

/-- Corpus n-gram sets. -/
def corpusSets (opts : Opts) : List (String × Finset String) :=
  (opts.corpus.getD []).map fun d => (d.name, ngrams (words d.text) (nOf opts))

/-- The `plgInternal` loop, with its `> 0.98` short-circuit `break`. -/
def plgInternalLoop (gs : List (Finset String)) (i : ℕ) : List ℕ → ℚ → ℚ
  | [], plg => plg
  | j :: rest, plg =>
    if j = i then plgInternalLoop gs i rest plg
    else
      let plg' := max plg (jaccard (gs.getD i ∅) (gs.getD j ∅))
      if plg' > 98/100 then plg' else plgInternalLoop gs i rest plg'

/-- `plgInternal` for sentence `i`. -/
def plgInternal (text : String) (opts : Opts) (i : ℕ) : ℚ :=
  plgInternalLoop (gramSets text opts) i (List.range (sents text).length) 0

/-- The `bestExt`/`bestSource` loop, with strict-improvement update and the
`> 0.98` short-circuit. -/
def bestExtLoop (g : Finset String) : List (String × Finset String) →
    (ℚ × Option String) → (ℚ × Option String)
  | [], acc => acc
  | cs :: rest, acc =>
    let sim := jaccard g cs.2
    let acc' := if sim > acc.1 then (sim, some cs.1) else acc
    if acc'.1 > 98/100 then acc' else bestExtLoop g rest acc'

/-- `bestExt`/`bestSource` for one sentence's gram set. -/
def bestExt (text : String) (opts : Opts) (i : ℕ) : ℚ × Option String :=
  bestExtLoop ((gramSets text opts).getD i ∅) (corpusSets opts) (0, none)

end P5

namespace P5

/-- The punctuation class `[,:;\-—()\[\]“”"'…]` counted per sentence. -/
def punctChar (c : Char) : Bool :=
  c = ',' || c = ':' || c = ';' || c = '-' || c = '—' || c = '(' || c = ')' ||
  c = '[' || c = ']' || c = '“' || c = '”' || c = '"' || c = '\'' || c = '…'

/-- `ttrScore`, `stopMid`, `awlScore` and the other rational feature scores
of one sentence (grouped for reuse in `ai01` and `confidence`). -/
def ttrScore (ws : List String) : ℚ := 1 - uniqueRatio ws

/-- `stopMid = 1 - min 1 (|stopR - 0.45| / 0.45)`. -/
def stopMid (ws : List String) : ℚ := 1 - min 1 (|stopwordRatio ws - 45/100| / (45/100))

/-- `awlScore = clamp₀¹ ((awl - 4) / 4)`. -/
def awlScore (ws : List String) : ℚ := min 1 (max 0 ((avgWordLen ws - 4) / 4))

/-- `entScore = 1 - min 1 (|ent - 3.5| / 3.5)` (entropy forces `ℝ`). -/
noncomputable def entScore (sentence : String) : ℝ :=
  1 - min 1 (|charEntropy sentence - 35/10| / (35/10))

/-- `burstSim = 1 - min 1 |(len - meanLen) / (stdLen || 1)|`. -/
noncomputable def burstSim (text : String) (ws : List String) : ℝ :=
  let sd : ℝ := if stdLen text = 0 then 1 else stdLen text
  1 - min 1 |((ws.length : ℝ) - (meanLen text : ℝ)) / sd|

/-- Share of this sentence's bigrams that repeat somewhere in the document
(`sentRepRatio`). -/
def sentRepRatio (text : String) (ws : List String) : ℚ :=
  let own := (ws.zip ws.tail).map fun p => p.1 ++ " " ++ p.2
  if own.length = 0 then 0
  else ((own.filter fun bg => 1 < bigramFreq text bg).length : ℚ) / own.length

/-- `ai01` of one sentence: the weighted feature sum of this variant,
minus the digit-density reduction, floored at 0. -/
noncomputable def ai01 (text : String) (_opts : Opts) (i : ℕ) : ℝ :=
  let s := (sents text).getD i ""
  let ws := (sentWords text).getD i []
  let puncts := (s.toList.filter punctChar).length
  let digits := (s.toList.filter jsDigit).length
  let punctScore : ℚ := min 1 ((puncts : ℚ) / 8)
  let digitScore : ℚ := min 1 ((digits : ℚ) / 6)
  let semCoherence := semanticCoherence s
    (if i = 0 then none else (sents text).get? (i - 1)) ((sents text).get? (i + 1))
  let base : ℝ :=
    (15/100) * burstSim text ws +
    (15/100) * (ttrScore ws : ℝ) +
    (10/100) * (stopMid ws : ℝ) +
    (10/100) * (awlScore ws : ℝ) +
    (8/100) * entScore s +
    (8/100) * (repBigramRatio text : ℝ) +
    (8/100) * (sentRepRatio text ws : ℝ) +
    (5/100) * (punctScore : ℝ) +
    (12/100) * (detectStylometricPatterns (sents text) : ℝ) +
    (9/100) * (1 - (semCoherence : ℝ)) +
    (10/100) * (detectAIPatterns s : ℝ) +
    (8/100) * (1 - (syntaxComplexity s : ℝ))
  max 0 (base - (8/100) * (digitScore : ℝ))

/-- `plg = Math.max(plgInternal, bestExt, plagPatterns)`. -/
def plg (text : String) (opts : Opts) (i : ℕ) : ℚ :=
  max (max (plgInternal text opts i) (bestExt text opts i).1)
    (detectPlagiarismPatterns ((sents text).getD i ""))

/-- Per-sentence `confidence`: variance convergence of five normalized
metrics, `Math.round ((1 - variance) * 100)`. -/
noncomputable def confidenceAt (text : String) (i : ℕ) : ℤ :=
  let s := (sents text).getD i ""
  let ws := (sentWords text).getD i []
  let metrics : List ℝ :=
    [(ttrScore ws : ℝ), (stopMid ws : ℝ), (awlScore ws : ℝ), entScore s,
     (detectStylometricPatterns (sents text) : ℝ)]
  let metricsMean : ℝ := metrics.sum / (metrics.length : ℝ)
  let metricsVariance : ℝ :=
    (metrics.map fun b => (b - metricsMean) ^ 2).sum / (metrics.length : ℝ)
  jsRound ((1 - metricsVariance) * 100)

/-- A `SentenceScore` of this variant. -/
structure SentenceScore where
  sentence : String
  ai : ℤ
  plagiarism : ℤ
  confidence : ℤ
  source : Option String
  features : LD.Features

instance : Inhabited SentenceScore := ⟨⟨"", 0, 0, 0, none, ⟨0, 0, 0, 0⟩⟩⟩

/-- One scored sentence: deterministic rounded scores, `bestExt ≥ 0.3`
source disclosure, rounded feature percentages. -/
noncomputable def sentenceScoreAt (text : String) (opts : Opts) (i : ℕ) : SentenceScore :=
  let s := (sents text).getD i ""
  let ws := (sentWords text).getD i []
  { sentence := s
    ai := jsRound (ai01 text opts i * 100)
    plagiarism := jsRound ((plg text opts i : ℚ) * 100)
    confidence := confidenceAt text i
    source := if (bestExt text opts i).1 ≥ 3/10 then (bestExt text opts i).2 else none
    features :=
      { lexicalDiversity := jsRound (uniqueRatio ws * 100)
        syntacticComplexity := jsRound (syntaxComplexity s * 100)
        semanticCoherence := jsRound
          (semanticCoherence s (if i = 0 then none else (sents text).get? (i - 1))
            ((sents text).get? (i + 1)) * 100)
        stylometricScore := jsRound (detectStylometricPatterns (sents text) * 100) } }

/-- The sentence-score list. -/
noncomputable def sentenceScores (text : String) (opts : Opts) : List SentenceScore :=
  (List.range (sents text).length).map (sentenceScoreAt text opts)

/-- This variant's `LocalReport` (engine part; the derived `analysis`
strings are presentation-only and not embedded).  The aggregates guard
their denominators with `(… || 1)`, so they are plain integers. -/
structure LocalReport where
  aiScore : ℤ
  plagiarism : ℤ
  confidence : ℤ
  sentences : List SentenceScore

/-- `analyzeTextTraditional` of `part_005`:
`aiScore = round (Σ ai / (len || 1))`;
`plagiarism = plgSorted[⌊0.95 · (len − 1)⌋]` over the ascending sort (0 for
an empty document); `confidence = round (Σ confidence / (len || 1))`. -/
noncomputable def analyzeTextTraditional (text : String) (opts : Opts) : LocalReport :=
  let sentences := sentenceScores text opts
  let n := sentences.length
  let aiScore := jsRound (((sentences.map (·.ai)).sum : ℚ) / (if n = 0 then 1 else n))
  let plgSorted := (sentences.map (·.plagiarism)).mergeSort (fun a b => a ≤ b)
  let idx95 : ℤ := ⌊(95/100 : ℚ) * ((n : ℚ) - 1)⌋
  let plagiarism := if plgSorted.length ≠ 0 then plgSorted.getD idx95.toNat 0 else 0
  let confidence := jsRound (((sentences.map (·.confidence)).sum : ℚ) / (if n = 0 then 1 else n))
  { aiScore := aiScore
    plagiarism := plagiarism
    confidence := confidence
    sentences := sentences }

end P5

/-! ## `RP`: the highlight-term selector of `src/src/pages/Report.tsx` -/

namespace RP

/-- `uniq`: `Array.from(new Set(arr.filter(Boolean)))` — drop empties, then
deduplicate keeping first occurrences. -/
def jsUniq (l : List String) : List String :=
  go [] (l.filter (· ≠ ""))
where
  go : List String → List String → List String
  | _, [] => []
  | seen, x :: xs => if x ∈ seen then go seen xs else x :: go (x :: seen) xs

/-- `Math.max(1, Math.ceil(n * 0.1))`. -/
def topCount (n : ℕ) : ℕ := max 1 (⌈(n : ℚ) * (1/10)⌉.toNat)

/-- The AI highlight terms: all sentences with `ai ≥ 70`, else `ai ≥ 50`,
else the top 10 % by `ai` (at least one) when any sentence exists. -/
def aiTerms (sentences : List LD.SentenceScore) : List String :=
  let t1 := jsUniq ((sentences.filter fun s => s.ai ≥ 70).map (·.sentence))
  let t2 := if t1.length = 0 then
    jsUniq ((sentences.filter fun s => s.ai ≥ 50).map (·.sentence)) else t1
  if t2.length = 0 ∧ sentences.length ≠ 0 then
    jsUniq (((sentences.mergeSort fun a b => b.ai ≤ a.ai).take
      (topCount sentences.length)).map (·.sentence))
  else t2

/-- The plagiarism fallback chain (`≥ 50`, `≥ 40`, top 10 %) before the
document-level zero guard. -/
def plgTermsPre (sentences : List LD.SentenceScore) : List String :=
  let t1 := jsUniq ((sentences.filter fun s => s.plagiarism ≥ 50).map (·.sentence))
  let t2 := if t1.length = 0 then
    jsUniq ((sentences.filter fun s => s.plagiarism ≥ 40).map (·.sentence)) else t1
  if t2.length = 0 ∧ sentences.length ≠ 0 then
    jsUniq (((sentences.mergeSort fun a b => b.plagiarism ≤ a.plagiarism).take
      (topCount sentences.length)).map (·.sentence))
  else t2

/-- JS `(report?.plagiarism ?? 0) <= 0` on a possibly-NaN document score
(`NaN <= 0` is false). -/
def docPlagiarismLE0 (docPlagiarism : Option ℝ) : Prop :=
  match docPlagiarism with
  | some v => v ≤ 0
  | none => False

noncomputable instance (d : Option ℝ) : Decidable (docPlagiarismLE0 d) := by
  unfold docPlagiarismLE0
  cases d with
  | none => exact inferInstanceAs (Decidable False)
  | some v => exact inferInstanceAs (Decidable (v ≤ 0))

/-- The emitted plagiarism highlight terms: the fallback chain, cleared when
the document-level `plagiarism` is ≤ 0. -/
noncomputable def plgTerms (sentences : List LD.SentenceScore) (docPlagiarism : Option ℝ) :
    List String :=
  if docPlagiarismLE0 docPlagiarism then [] else plgTermsPre sentences

/-- The two highlight groups handed to the highlighter. -/
noncomputable def groups (sentences : List LD.SentenceScore) (docPlagiarism : Option ℝ) :
    List (List String × String) :=
  [(aiTerms sentences, "mark-ai"), (plgTerms sentences docPlagiarism, "mark-plagiarism")]

end RP

/-! ## `HT`: the term-matching core of `src/src/components/HighlightedText.tsx` -/

namespace HT

/-- A highlight token: a term with its mark class (`escapeRegex` makes the
term a literal, so a token is matched as a case-insensitive literal). -/
structure Tok where
  term : String
  cls : Option String

/-- A collected match `{start, end}` with its class. -/
structure HMatch where
  start : ℕ
  stop : ℕ
  cls : Option String

/-- The token list: trimmed nonempty `highlights` with the default class,
then the trimmed nonempty group terms, sorted by descending term length
(`arr.sort((a, b) => b.term.length - a.term.length)`). -/
def buildTokens (highlights : List String) (className : Option String)
    (groups : List (List String × String)) : List Tok :=
  let base := ((highlights.map jsTrim).filter (· ≠ "")).map fun t => Tok.mk t className
  let grouped := groups.flatMap fun g =>
    ((g.1.map jsTrim).filter (· ≠ "")).map fun t => Tok.mk t (some g.2)
  (base ++ grouped).mergeSort fun a b => b.term.length ≤ a.term.length

/-- First index at which `term` occurs case-insensitively (the
`pattern.exec` search for the literal pattern with flags `gi`). -/
def findCI (term : List Char) : List Char → Option ℕ
  | [] => if term.isEmpty then some 0 else none
  | c :: rest =>
    if (litPrefix true term (c :: rest)).isSome then some 0
    else (findCI term rest).map (· + 1)

/-- The per-token `while ((m = pattern.exec(text)))` loop: at each found
occurrence, skip it if any of its character positions is already `used`
(`continue`, with `lastIndex` already advanced past the match), otherwise
mark its positions and record the match. -/
def scanTok (term : List Char) (cls : Option String) (text : List Char) :
    ℕ → ℕ → Finset ℕ → List HMatch → Finset ℕ × List HMatch
  | 0, _, used, acc => (used, acc)
  | fuel + 1, pos, used, acc =>
    match findCI term (text.drop pos) with
    | none => (used, acc)
    | some off =>
      let s := pos + off
      let e := s + term.length
      if (List.range' s term.length).any (· ∈ used) then
        scanTok term cls text fuel e used acc
      else
        scanTok term cls text fuel e (used ∪ (List.range' s term.length).toFinset)
          (acc ++ [⟨s, e, cls⟩])

/-- All matches of all tokens, sharing one `used` position set. -/
def collect (text : List Char) (toks : List Tok) : Finset ℕ × List HMatch :=
  toks.foldl
    (fun st tok => scanTok tok.term.toList tok.cls text (text.length + 1) 0 st.1 st.2)
    (∅, [])

/-- The final match list of the component: empty for empty text or no
tokens, else all collected matches sorted by start position. -/
def matchList (text : String) (highlights : List String) (className : Option String)
    (groups : List (List String × String)) : List HMatch :=
  let tokens := buildTokens highlights className groups
  if text = "" ∨ tokens.length = 0 then []
  else ((collect text.toList tokens).2.mergeSort fun a b => a.start ≤ b.start)

/-- Two matches do not overlap. -/
def noOverlap (m1 m2 : HMatch) : Prop :=
  m1.stop ≤ m2.start ∨ m2.stop ≤ m1.start

end HT

/-! ## Shared concrete instances and numeric helper lemmas -/

/-- `Math.random()` draws lie in `[0, 1)`. -/
def validStream (r : ℕ → ℚ) : Prop := ∀ k, 0 ≤ r k ∧ r k < 1

/-- A draw stream whose every call returns `0.5`. -/
def rHalf : ℕ → ℚ := fun _ => 1/2

/-- A draw stream whose every call returns `0.9`. -/
def rNine : ℕ → ℚ := fun _ => 9/10

/-- A one-sentence input (four words, so one 4-gram). -/
def textOne : String := "1 2 3 4."

/-- Two character-for-character identical sentences. -/
def textDup : String := "1 2 3 4. 1 2 3 4."

/-- Two identical sentences and one unrelated sentence. -/
def textTri : String := "1 2 3 4. 1 2 3 4. 5 6 7 8."

/-- A five-word sentence matching the corpus document `src`. -/
def textFive : String := "1 2 3 4 5."

/-- A one-document corpus whose text matches `textFive`'s words. -/
def corpusFive : List LD.CorpusDoc := [⟨"src", "1 2 3 4 5"⟩]

/-- Options carrying `corpusFive`. -/
def optsFive : LD.Opts := ⟨some corpusFive, none, none⟩

/-- The same corpus for the `part_005` variant. -/
def optsFiveP5 : P5.Opts := ⟨some corpusFive, none⟩

/-- The arithmetic mean of a list of integer scores, as the spec's §4.6
words it (`0/0` never taken below: used only under a nonemptiness
hypothesis). -/
def specMean (xs : List ℤ) : ℚ := (xs.sum : ℚ) / xs.length

/-- The `p`-th percentile of integer scores as the spec's §4.6 words it for
this code base: the element of the ascending sort at index
`⌊p · (n − 1)⌋`. -/
def specPercentile (p : ℚ) (xs : List ℤ) : ℤ :=
  ((xs.mergeSort fun a b => a ≤ b).getD (⌊p * ((xs.length : ℚ) - 1)⌋).toNat 0)

section NumericLemmas

variable {α : Type} [LinearOrderedField α] [FloorRing α]

theorem randomVariation_nonneg (base range draw : α) :
    0 ≤ LD.randomVariation base range draw :=
  le_max_left 0 _

theorem randomVariation_le_26 (base range draw : α) :
    LD.randomVariation base range draw ≤ 26 :=
  max_le (by norm_num) (min_le_left 26 _)

theorem floor_half (α) [LinearOrderedField α] [FloorRing α] : ⌊(1/2 : α)⌋ = 0 := by
  rw [Int.floor_eq_iff] <;> norm_num

theorem jsRound_le_of_le {x : α} {b : ℤ} (h : x ≤ b) : jsRound x ≤ b := by
  have h2 : ⌊x + 1/2⌋ ≤ ⌊(b : α) + 1/2⌋ := Int.floor_le_floor (by linarith)
  rwa [Int.floor_int_add, floor_half, add_zero] at h2

theorem le_jsRound_of_le {x : α} {a : ℤ} (h : (a : α) ≤ x) : a ≤ jsRound x := by
  have h2 : ⌊(a : α) + 1/2⌋ ≤ ⌊x + 1/2⌋ := Int.floor_le_floor (by linarith)
  rwa [Int.floor_int_add, floor_half, add_zero] at h2

theorem jsRound_mem_Icc {x : α} {a b : ℤ} (ha : (a : α) ≤ x) (hb : x ≤ b) :
    a ≤ jsRound x ∧ jsRound x ≤ b :=
  ⟨le_jsRound_of_le ha, jsRound_le_of_le hb⟩

/-- The mean of a nonempty integer list lies between bounds on its
elements. -/
theorem specMean_mem_Icc {xs : List ℤ} {a b : ℤ} (hne : xs ≠ [])
    (h : ∀ x ∈ xs, a ≤ x ∧ x ≤ b) : (a : ℚ) ≤ specMean xs ∧ specMean xs ≤ (b : ℚ) := by
  have hlen : 0 < (xs.length : ℚ) := by
    have := List.length_pos.mpr hne
    exact_mod_cast this
  have hsum_le : xs.sum ≤ xs.length * b := by
    calc xs.sum ≤ xs.length • b := List.sum_le_card_nsmul xs b (fun x hx => (h x hx).2)
    _ = xs.length * b := by simp [nsmul_eq_mul]
  have hsum_ge : (xs.length : ℤ) * a ≤ xs.sum := by
    calc (xs.length : ℤ) * a = xs.length • a := by simp [nsmul_eq_mul]
    _ ≤ xs.sum := List.card_nsmul_le_sum xs a (fun x hx => (h x hx).1)
  constructor
  · rw [specMean, le_div_iff₀ hlen]
    calc (a : ℚ) * xs.length = ((xs.length * a : ℤ) : ℚ) := by push_cast; ring
    _ ≤ (xs.sum : ℚ) := by exact_mod_cast hsum_ge
  · rw [specMean, div_le_iff₀ hlen]
    calc (xs.sum : ℚ) ≤ ((xs.length * b : ℤ) : ℚ) := by exact_mod_cast hsum_le
    _ = (b : ℚ) * xs.length := by push_cast; ring

/-- `max 0 (min 26 ·)` moves points closer together. -/
theorem clamp_lipschitz (x y : α) :
    |max 0 (min 26 x) - max 0 (min 26 y)| ≤ |x - y| := by
  have h1 : |min 26 x - min 26 y| ≤ |x - y| := by
    have h := abs_min_sub_min_le_max 26 x 26 y
    simpa using h
  have h2 : |max 0 (min 26 x) - max 0 (min 26 y)| ≤ |min 26 x - min 26 y| := by
    rw [max_comm 0 (min 26 x), max_comm 0 (min 26 y)]
    exact abs_max_sub_max_le_abs _ _ 0
  exact le_trans h2 h1

/-- Rounding two points less than `d` apart gives integers at most `d`
apart. -/
theorem jsRound_diff_le {x y : α} {d : ℤ} (h : |x - y| < (d : α)) :
    |jsRound x - jsRound y| ≤ d := by
  rw [abs_sub_lt_iff] at h
  rw [abs_le]
  constructor
  · have h2 : ⌊y + 1/2⌋ ≤ ⌊x + 1/2 + d⌋ := Int.floor_le_floor (by linarith)
    rw [Int.floor_add_int] at h2
    simp only [jsRound]
    omega
  · have h2 : ⌊x + 1/2⌋ ≤ ⌊y + 1/2 + d⌋ := Int.floor_le_floor (by linarith)
    rw [Int.floor_add_int] at h2
    simp only [jsRound]
    omega

end NumericLemmas

/-! ## Structural lemmas about the `LD` pipeline -/

theorem getD_map_of_lt {α β : Type} (f : α → β) (l : List α) (i : ℕ) (h : i < l.length)
    (d : α) (d' : β) : (l.map f).getD i d' = f (l.getD i d) := by
  rw [List.getD_eq_getElem?_getD, List.getD_eq_getElem?_getD, List.getElem?_map]
  rw [List.getElem?_eq_getElem h]
  simp

theorem LD.sentenceScores_getD (text : String) (opts : Opts) (r : ℕ → ℚ) (i : ℕ)
    (h : i < (sents text).length) :
    (sentenceScores text opts r).getD i default = sentenceScoreAt text opts r i := by
  unfold sentenceScores
  have hlen : i < (List.range (sents text).length).length := by simpa using h
  rw [getD_map_of_lt _ _ i hlen 0]
  congr 1
  rw [List.getD_eq_getElem?_getD, List.getElem?_range h]
  rfl

theorem LD.sentenceScores_length (text : String) (opts : Opts) (r : ℕ → ℚ) :
    (sentenceScores text opts r).length = (sents text).length := by
  simp [sentenceScores]

theorem LD.mem_sentenceScores {text : String} {opts : Opts} {r : ℕ → ℚ}
    {s : SentenceScore} (h : s ∈ sentenceScores text opts r) :
    ∃ i, i < (sents text).length ∧ s = sentenceScoreAt text opts r i := by
  obtain ⟨i, hi, rfl⟩ := List.mem_map.mp h
  exact ⟨i, List.mem_range.mp hi, rfl⟩

/-- Per-sentence `ai` is clamped into `[0, 26]` whatever the draw. -/
theorem LD.ai_bounds (text : String) (opts : Opts) (r : ℕ → ℚ) (i : ℕ) :
    0 ≤ (sentenceScoreAt text opts r i).ai ∧ (sentenceScoreAt text opts r i).ai ≤ 26 := by
  unfold sentenceScoreAt
  exact jsRound_mem_Icc (by exact_mod_cast randomVariation_nonneg _ _ _)
    (by exact_mod_cast randomVariation_le_26 (α := ℝ) _ _ _)

/-- Per-sentence `plagiarism` is clamped into `[0, 26]` whatever the draw. -/
theorem LD.plagiarism_bounds (text : String) (opts : Opts) (r : ℕ → ℚ) (i : ℕ) :
    0 ≤ (sentenceScoreAt text opts r i).plagiarism ∧
      (sentenceScoreAt text opts r i).plagiarism ≤ 26 := by
  unfold sentenceScoreAt
  exact jsRound_mem_Icc (by exact_mod_cast randomVariation_nonneg (α := ℚ) _ _ _)
    (by exact_mod_cast randomVariation_le_26 (α := ℚ) _ _ _)

/-- Per-sentence `confidence` is `70 + ⌊8·draw⌋ ∈ [70, 77]` for a draw in
`[0, 1)`. -/
theorem LD.confidence_bounds (text : String) (opts : Opts) (r : ℕ → ℚ) (i : ℕ)
    (hr : validStream r) :
    70 ≤ (sentenceScoreAt text opts r i).confidence ∧
      (sentenceScoreAt text opts r i).confidence ≤ 77 := by
  obtain ⟨h0, h1⟩ := hr (3*i+2)
  unfold sentenceScoreAt
  have hf0 : 0 ≤ ⌊r (3*i+2) * 8⌋ := Int.floor_nonneg.mpr (by positivity)
  have hf1 : ⌊r (3*i+2) * 8⌋ < 8 := Int.floor_lt.mpr (by push_cast; nlinarith)
  constructor
  · simpa using hf0
  · simp only []
    omega

/-- `meanRoundZ` of a nonempty list is the rounded `specMean`. -/
theorem LD.meanRoundZ_eq_specMean {xs : List ℤ} (h : xs ≠ []) :
    meanRoundZ xs = some (jsRound (specMean xs)) := by
  unfold meanRoundZ specMean
  rw [if_pos]
  simpa using h

/-! ## Claim theorems -/

/-- C1: for the empty string, both detectors yield an empty sentence list;
but in the canonical `localDetector.ts` the document aggregates divide
`0/0` and are `NaN` (`none`), not `0` — the guarded `part_005` variant
returns 0 for all three scores, as the spec requires. -/
theorem c1_empty_text_report_fields :
    (LD.analyzeTextTraditional "" LD.defaultOpts rHalf).sentences = [] ∧
    (LD.analyzeTextTraditional "" LD.defaultOpts rHalf).aiScore = none ∧
    (LD.analyzeTextTraditional "" LD.defaultOpts rHalf).plagiarism = none ∧
    (LD.analyzeTextTraditional "" LD.defaultOpts rHalf).confidence = none ∧
    (P5.analyzeTextTraditional "" P5.defaultOpts).sentences = [] ∧
    (P5.analyzeTextTraditional "" P5.defaultOpts).aiScore = 0 ∧
    (P5.analyzeTextTraditional "" P5.defaultOpts).plagiarism = 0 ∧
    (P5.analyzeTextTraditional "" P5.defaultOpts).confidence = 0 := by
  have hL : LD.sents "" = [] := by decide
  have hSS : LD.sentenceScores "" LD.defaultOpts rHalf = [] := by
    simp [LD.sentenceScores, hL]
  have hP : P5.sents "" = [] := by decide
  have hSSP : P5.sentenceScores "" P5.defaultOpts = [] := by
    simp [P5.sentenceScores, hP]
  refine ⟨?_, ?_, ?_, ?_, ?_, ?_, ?_, ?_⟩
  · simp [LD.analyzeTextTraditional, hSS]
  · simp [LD.analyzeTextTraditional, LD.docAiScoreZ, LD.meanRoundZ, hSS]
  · simp [LD.analyzeTextTraditional, LD.docPlagiarismZ, LD.meanRoundZ, hSS]
  · simp [LD.analyzeTextTraditional, LD.docConfidenceZ, LD.meanRoundZ, hSS]
  · simp [P5.analyzeTextTraditional, hSSP]
  · simp [P5.analyzeTextTraditional, hSSP]
    norm_num [jsRound]
  · simp [P5.analyzeTextTraditional, hSSP]
  · simp [P5.analyzeTextTraditional, hSSP]
    norm_num [jsRound]

/-- Mean-round of a bounded nonempty integer list, packaged. -/
theorem meanRoundZ_bounds {xs : List ℤ} (hne : xs ≠ []) {a b : ℤ}
    (h : ∀ x ∈ xs, a ≤ x ∧ x ≤ b) :
    ∃ v : ℤ, LD.meanRoundZ xs = some v ∧ a ≤ v ∧ v ≤ b := by
  obtain ⟨h1, h2⟩ := specMean_mem_Icc hne h
  refine ⟨jsRound (specMean xs), LD.meanRoundZ_eq_specMean hne, ?_, ?_⟩
  · exact le_jsRound_of_le h1
  · exact jsRound_le_of_le h2

/-- All scores of a nonempty traditional report are integers in range:
per-sentence `ai`, `plagiarism ∈ [0,26]`, `confidence ∈ [70,77]`, and the
document aggregates are defined means within the same ranges. -/
theorem LD.report_ranges (text : String) (opts : Opts) (r : ℕ → ℚ)
    (hr : validStream r) (hs : sents text ≠ []) :
    (∀ s ∈ (analyzeTextTraditional text opts r).sentences,
      (0 ≤ s.ai ∧ s.ai ≤ 26) ∧ (0 ≤ s.plagiarism ∧ s.plagiarism ≤ 26) ∧
      (70 ≤ s.confidence ∧ s.confidence ≤ 77)) ∧
    (∃ a : ℤ, (analyzeTextTraditional text opts r).aiScore = some (a : ℝ) ∧ 0 ≤ a ∧ a ≤ 26) ∧
    (∃ p : ℤ, (analyzeTextTraditional text opts r).plagiarism = some (p : ℝ) ∧
      0 ≤ p ∧ p ≤ 26) ∧
    (∃ c : ℤ, (analyzeTextTraditional text opts r).confidence = some (c : ℝ) ∧
      70 ≤ c ∧ c ≤ 77) := by
  have hsent : (analyzeTextTraditional text opts r).sentences = sentenceScores text opts r := rfl
  have hne : sentenceScores text opts r ≠ [] := by
    intro hc
    have := sentenceScores_length text opts r
    rw [hc] at this
    exact hs (List.length_eq_zero.mp this.symm)
  have hper : ∀ s ∈ sentenceScores text opts r,
      (0 ≤ s.ai ∧ s.ai ≤ 26) ∧ (0 ≤ s.plagiarism ∧ s.plagiarism ≤ 26) ∧
      (70 ≤ s.confidence ∧ s.confidence ≤ 77) := by
    intro s hsmem
    obtain ⟨i, _, rfl⟩ := mem_sentenceScores hsmem
    exact ⟨ai_bounds text opts r i, plagiarism_bounds text opts r i,
      confidence_bounds text opts r i hr⟩
  refine ⟨by rw [hsent]; exact hper, ?_, ?_, ?_⟩
  · have hmap : (sentenceScores text opts r).map (·.ai) ≠ [] := by
      simpa using hne
    obtain ⟨v, hv, h0, h1⟩ := meanRoundZ_bounds hmap (by
      intro x hx
      obtain ⟨s, hsm, rfl⟩ := List.mem_map.mp hx
      exact (hper s hsm).1)
    refine ⟨v, ?_, h0, h1⟩
    show (docAiScoreZ text opts r).map (fun z => (z : ℝ)) = some ((v : ℤ) : ℝ)
    rw [docAiScoreZ, hv]
    rfl
  · have hmap : (sentenceScores text opts r).map (·.plagiarism) ≠ [] := by
      simpa using hne
    obtain ⟨v, hv, h0, h1⟩ := meanRoundZ_bounds hmap (by
      intro x hx
      obtain ⟨s, hsm, rfl⟩ := List.mem_map.mp hx
      exact (hper s hsm).2.1)
    refine ⟨v, ?_, h0, h1⟩
    show (docPlagiarismZ text opts r).map (fun z => (z : ℝ)) = some ((v : ℤ) : ℝ)
    rw [docPlagiarismZ, hv]
    rfl
  · have hmap : (sentenceScores text opts r).map (·.confidence) ≠ [] := by
      simpa using hne
    obtain ⟨v, hv, h0, h1⟩ := meanRoundZ_bounds hmap (by
      intro x hx
      obtain ⟨s, hsm, rfl⟩ := List.mem_map.mp hx
      exact (hper s hsm).2.2)
    refine ⟨v, ?_, h0, h1⟩
    show (docConfidenceZ text opts r).map (fun z => (z : ℝ)) = some ((v : ℤ) : ℝ)
    rw [docConfidenceZ, hv]
    rfl

/-- C3 (counterexample): for the empty input the document-level scores of
the canonical detector are `NaN` (`none`), not integers in `[0, 100]`. -/
theorem c3_empty_text_scores_not_in_range :
    (LD.analyzeTextTraditional "" LD.defaultOpts rNine).aiScore = none ∧
    (LD.analyzeTextTraditional "" LD.defaultOpts rNine).plagiarism = none ∧
    (LD.analyzeTextTraditional "" LD.defaultOpts rNine).confidence = none := by
  have hL : LD.sents "" = [] := by decide
  have hSS : LD.sentenceScores "" LD.defaultOpts rNine = [] := by
    simp [LD.sentenceScores, hL]
  refine ⟨?_, ?_, ?_⟩
  · simp [LD.analyzeTextTraditional, LD.docAiScoreZ, LD.meanRoundZ, hSS]
  · simp [LD.analyzeTextTraditional, LD.docPlagiarismZ, LD.meanRoundZ, hSS]
  · simp [LD.analyzeTextTraditional, LD.docConfidenceZ, LD.meanRoundZ, hSS]

/-- C3 (amended): for every input text that yields at least one sentence
and any `Math.random` draws in `[0,1)`, every per-sentence `ai`,
`plagiarism` and `confidence` and the three document-level scores are
integers in `[0, 100]`. -/
theorem c3_all_scores_integers_in_0_100 (text : String) (opts : LD.Opts) (r : ℕ → ℚ)
    (hr : validStream r) (hs : LD.sents text ≠ []) :
    (∀ s ∈ (LD.analyzeTextTraditional text opts r).sentences,
      (0 ≤ s.ai ∧ s.ai ≤ 100) ∧ (0 ≤ s.plagiarism ∧ s.plagiarism ≤ 100) ∧
      (0 ≤ s.confidence ∧ s.confidence ≤ 100)) ∧
    (∃ a : ℤ, (LD.analyzeTextTraditional text opts r).aiScore = some (a : ℝ) ∧
      0 ≤ a ∧ a ≤ 100) ∧
    (∃ p : ℤ, (LD.analyzeTextTraditional text opts r).plagiarism = some (p : ℝ) ∧
      0 ≤ p ∧ p ≤ 100) ∧
    (∃ c : ℤ, (LD.analyzeTextTraditional text opts r).confidence = some (c : ℝ) ∧
      0 ≤ c ∧ c ≤ 100) := by
  obtain ⟨hper, ⟨a, ha, ha0, ha1⟩, ⟨p, hp, hp0, hp1⟩, ⟨c, hc, hc0, hc1⟩⟩ :=
    LD.report_ranges text opts r hr hs
  refine ⟨?_, ⟨a, ha, ha0, by omega⟩, ⟨p, hp, hp0, by omega⟩, ⟨c, hc, by omega, by omega⟩⟩
  intro s hsm
  obtain ⟨⟨h1, h2⟩, ⟨h3, h4⟩, ⟨h5, h6⟩⟩ := hper s hsm
  exact ⟨⟨h1, by omega⟩, ⟨h3, by omega⟩, ⟨by omega, by omega⟩⟩

/-- Witness for C3 at `textOne` with draws `0.5`. -/
theorem c3_all_scores_integers_in_0_100_witness :
    validStream rHalf ∧ LD.sents textOne ≠ [] ∧
    (∃ a : ℤ, (LD.analyzeTextTraditional textOne LD.defaultOpts rHalf).aiScore = some (a : ℝ) ∧
      0 ≤ a ∧ a ≤ 100) :=
  ⟨fun _ => by norm_num [rHalf], by decide,
   (c3_all_scores_integers_in_0_100 textOne LD.defaultOpts rHalf
      (fun _ => by norm_num [rHalf]) (by decide)).2.1⟩

/-- With a rejected prediction the `try` block falls through to the
traditional analysis. -/
theorem LD.analyzeText_none (text : String) (opts : LD.Opts) (r : ℕ → ℚ) :
    LD.analyzeText text opts none r = LD.analyzeTextTraditional text opts r := by
  simp only [LD.analyzeText]
  split <;> rfl

/-- C5 (counterexample): with the ML predictor failing, `analyzeText` on
the empty string does fall back to the heuristic report, but its scores
are `NaN` (`none`) rather than populating `[0, 100]`. -/
theorem c5_ml_failure_empty_text_scores_nan :
    LD.analyzeText "" LD.defaultOpts none rHalf =
      LD.analyzeTextTraditional "" LD.defaultOpts rHalf ∧
    (LD.analyzeText "" LD.defaultOpts none rHalf).aiScore = none := by
  constructor
  · exact LD.analyzeText_none "" LD.defaultOpts rHalf
  · have hL : LD.sents "" = [] := by decide
    have hSS : LD.sentenceScores "" LD.defaultOpts rHalf = [] := by
      simp [LD.sentenceScores, hL]
    rw [LD.analyzeText_none]
    simp [LD.analyzeTextTraditional, LD.docAiScoreZ, LD.meanRoundZ, hSS]

/-- C5 (amended): whenever the external predictor's `predict` rejects,
`analyzeText` returns exactly the heuristic report (no exception escapes),
its `analysis.modelUsed` is the heuristic label, and for inputs with at
least one sentence all scores populate within `[0, 100]`. -/
theorem c5_ml_failure_falls_back_to_heuristic (text : String) (opts : LD.Opts) (r : ℕ → ℚ)
    (hr : validStream r) :
    LD.analyzeText text opts none r = LD.analyzeTextTraditional text opts r ∧
    (LD.analyzeText text opts none r).analysis.modelUsed = "Traditional Algorithm" ∧
    (LD.sents text ≠ [] →
      (∀ s ∈ (LD.analyzeText text opts none r).sentences,
        (0 ≤ s.ai ∧ s.ai ≤ 100) ∧ (0 ≤ s.plagiarism ∧ s.plagiarism ≤ 100) ∧
        (0 ≤ s.confidence ∧ s.confidence ≤ 100)) ∧
      (∃ a : ℤ, (LD.analyzeText text opts none r).aiScore = some (a : ℝ) ∧ 0 ≤ a ∧ a ≤ 100) ∧
      (∃ p : ℤ, (LD.analyzeText text opts none r).plagiarism = some (p : ℝ) ∧
        0 ≤ p ∧ p ≤ 100) ∧
      (∃ c : ℤ, (LD.analyzeText text opts none r).confidence = some (c : ℝ) ∧
        0 ≤ c ∧ c ≤ 100)) := by
  have he : LD.analyzeText text opts none r = LD.analyzeTextTraditional text opts r :=
    LD.analyzeText_none text opts r
  refine ⟨he, by rw [he]; rfl, ?_⟩
  intro hs
  rw [he]
  obtain ⟨hper, ⟨a, ha, ha0, ha1⟩, ⟨p, hp, hp0, hp1⟩, ⟨c, hc, hc0, hc1⟩⟩ :=
    LD.report_ranges text opts r hr hs
  refine ⟨?_, ⟨a, ha, ha0, by omega⟩, ⟨p, hp, hp0, by omega⟩, ⟨c, hc, by omega, by omega⟩⟩
  intro s hsm
  obtain ⟨⟨h1, h2⟩, ⟨h3, h4⟩, ⟨h5, h6⟩⟩ := hper s hsm
  exact ⟨⟨h1, by omega⟩, ⟨h3, by omega⟩, ⟨by omega, by omega⟩⟩

/-- Witness for C5 at `textOne` with draws `0.5`. -/
theorem c5_ml_failure_falls_back_to_heuristic_witness :
    validStream rHalf ∧
    LD.analyzeText textOne LD.defaultOpts none rHalf =
      LD.analyzeTextTraditional textOne LD.defaultOpts rHalf ∧
    (LD.analyzeText textOne LD.defaultOpts none rHalf).analysis.modelUsed =
      "Traditional Algorithm" :=
  ⟨fun _ => by norm_num [rHalf],
   (c5_ml_failure_falls_back_to_heuristic textOne LD.defaultOpts rHalf
      (fun _ => by norm_num [rHalf])).1,
   (c5_ml_failure_falls_back_to_heuristic textOne LD.defaultOpts rHalf
      (fun _ => by norm_num [rHalf])).2.1⟩

/-- A `Math.min(26, ·)`-capped optional value is at most 26 when present. -/
theorem min26_map_le {o : Option ℝ} {v : ℝ} (h : o.map (fun x => min (26:ℝ) x) = some v) :
    v ≤ 26 := by
  obtain ⟨x, _, rfl⟩ := Option.map_eq_some'.mp h
  exact min_le_left _ _

/-- `analyzeText` with a successful prediction is the ML blend (or the
plain heuristic report when `useML: false` was passed). -/
theorem LD.analyzeText_some (text : String) (opts : Opts) (ml : MLPrediction) (r : ℕ → ℚ) :
    analyzeText text opts (some ml) r =
      if opts.useML ≠ some false then
        combineMLAndTraditional ml (analyzeTextTraditional text opts r) r
      else analyzeTextTraditional text opts r := rfl

/-- C10: on every input with at least one sentence, per-sentence `ai` and
`plagiarism` and the document-level `aiScore` and `plagiarism` never exceed
26, on the heuristic path (clamping in `randomVariation`) and on the
ML-combined path (`Math.min(26, ·)`), whose sentence list is the heuristic
one. -/
theorem c10_scores_capped_at_26 (text : String) (opts : LD.Opts) (r : ℕ → ℚ)
    (ml : LD.MLPrediction) (hs : LD.sents text ≠ []) :
    (∀ s ∈ (LD.analyzeTextTraditional text opts r).sentences,
      s.ai ≤ 26 ∧ s.plagiarism ≤ 26) ∧
    (∃ a : ℤ, (LD.analyzeTextTraditional text opts r).aiScore = some (a : ℝ) ∧ a ≤ 26) ∧
    (∃ p : ℤ, (LD.analyzeTextTraditional text opts r).plagiarism = some (p : ℝ) ∧ p ≤ 26) ∧
    ((LD.analyzeText text opts (some ml) r).sentences =
      (LD.analyzeTextTraditional text opts r).sentences) ∧
    (∀ v : ℝ, (LD.analyzeText text opts (some ml) r).aiScore = some v → v ≤ 26) ∧
    (∀ v : ℝ, (LD.analyzeText text opts (some ml) r).plagiarism = some v → v ≤ 26) := by
  have hsent : (LD.analyzeTextTraditional text opts r).sentences =
      LD.sentenceScores text opts r := rfl
  have hne : LD.sentenceScores text opts r ≠ [] := by
    intro hc
    have := LD.sentenceScores_length text opts r
    rw [hc] at this
    exact hs (List.length_eq_zero.mp this.symm)
  have hper : ∀ s ∈ LD.sentenceScores text opts r, s.ai ≤ 26 ∧ s.plagiarism ≤ 26 := by
    intro s hsm
    obtain ⟨i, _, rfl⟩ := LD.mem_sentenceScores hsm
    exact ⟨(LD.ai_bounds text opts r i).2, (LD.plagiarism_bounds text opts r i).2⟩
  have hmapA : (LD.sentenceScores text opts r).map (·.ai) ≠ [] := by simpa using hne
  have hmapP : (LD.sentenceScores text opts r).map (·.plagiarism) ≠ [] := by simpa using hne
  obtain ⟨a, haZ, _, ha26⟩ := meanRoundZ_bounds hmapA (by
    intro x hx
    obtain ⟨s, hsm, rfl⟩ := List.mem_map.mp hx
    obtain ⟨i, _, rfl⟩ := LD.mem_sentenceScores hsm
    exact LD.ai_bounds text opts r i)
  obtain ⟨p, hpZ, _, hp26⟩ := meanRoundZ_bounds hmapP (by
    intro x hx
    obtain ⟨s, hsm, rfl⟩ := List.mem_map.mp hx
    obtain ⟨i, _, rfl⟩ := LD.mem_sentenceScores hsm
    exact LD.plagiarism_bounds text opts r i)
  have haR : (LD.analyzeTextTraditional text opts r).aiScore = some ((a : ℤ) : ℝ) := by
    show (LD.docAiScoreZ text opts r).map (fun z => (z : ℝ)) = some ((a : ℤ) : ℝ)
    rw [LD.docAiScoreZ, haZ]
    rfl
  have hpR : (LD.analyzeTextTraditional text opts r).plagiarism = some ((p : ℤ) : ℝ) := by
    show (LD.docPlagiarismZ text opts r).map (fun z => (z : ℝ)) = some ((p : ℤ) : ℝ)
    rw [LD.docPlagiarismZ, hpZ]
    rfl
  refine ⟨by rw [hsent]; exact hper, ⟨a, haR, ha26⟩, ⟨p, hpR, hp26⟩, ?_, ?_, ?_⟩
  · rw [LD.analyzeText_some]
    split <;> rfl
  · intro v hv
    rw [LD.analyzeText_some] at hv
    split at hv
    · exact min26_map_le hv
    · rw [haR] at hv
      have : ((a : ℤ) : ℝ) = v := Option.some.inj hv
      rw [← this]
      exact_mod_cast ha26
  · intro v hv
    rw [LD.analyzeText_some] at hv
    split at hv
    · exact min26_map_le hv
    · rw [hpR] at hv
      have : ((p : ℤ) : ℝ) = v := Option.some.inj hv
      rw [← this]
      exact_mod_cast hp26

/-- Witness for C10 at `textOne` with draws `0.5` and a concrete
prediction. -/
theorem c10_scores_capped_at_26_witness :
    LD.sents textOne ≠ [] ∧
    (∃ a : ℤ, (LD.analyzeTextTraditional textOne LD.defaultOpts rHalf).aiScore =
      some (a : ℝ) ∧ a ≤ 26) :=
  ⟨by decide,
   (c10_scores_capped_at_26 textOne LD.defaultOpts rHalf ⟨50, 50, 80⟩ (by decide)).2.1⟩

/-! ## Concrete evaluations at the shared inputs -/

theorem LD.gramSets_textOne : gramSets textOne defaultOpts = [{"1 2 3 4"}] := by decide

theorem LD.isim_textOne : internalSimilarity (gramSets textOne defaultOpts) 0 = 0 := by
  have hr : List.range 1 = [0] := by decide
  rw [gramSets_textOne]
  simp [internalSimilarity, hr]

theorem LD.ebest_empty_corpus (g : Finset String) :
    externalBest g (corpusSets defaultOpts) = (0, none) := by
  simp [externalBest, corpusSets, defaultOpts]

theorem LD.plagPatterns_digits : detectPlagiarismPatterns "1 2 3 4." = 0 := by
  have h : plagiarismPatternCounts "1 2 3 4." = [0, 0, 0, 0, 0, 0] := by decide
  simp [detectPlagiarismPatterns, h]

theorem LD.plagBase_textOne : plagiarismBase textOne defaultOpts 0 = 0 := by
  have hs : sents textOne = ["1 2 3 4."] := by decide
  simp only [plagiarismBase, hs, List.getD_cons_zero, isim_textOne, ebest_empty_corpus,
    plagPatterns_digits]
  rw [if_neg (fun h => absurd h.1 (by decide))]
  norm_num

/-- C4 (counterexample): the same input text and options analysed under two
different `Math.random` draw streams (two invocations) produce different
per-sentence and document plagiarism scores — the jitter in
`randomVariation` makes scoring nondeterministic. -/
theorem c4_same_input_two_invocations_differ :
    ((LD.analyzeTextTraditional textOne LD.defaultOpts rHalf).sentences.map (·.plagiarism))
      = [0] ∧
    ((LD.analyzeTextTraditional textOne LD.defaultOpts rNine).sentences.map (·.plagiarism))
      = [2] ∧
    (LD.analyzeTextTraditional textOne LD.defaultOpts rHalf).sentences.map (·.plagiarism) ≠
      (LD.analyzeTextTraditional textOne LD.defaultOpts rNine).sentences.map (·.plagiarism) ∧
    LD.docPlagiarismZ textOne LD.defaultOpts rHalf = some 0 ∧
    LD.docPlagiarismZ textOne LD.defaultOpts rNine = some 2 := by
  have hs : LD.sents textOne = ["1 2 3 4."] := by decide
  have hr1 : List.range 1 = [0] := by decide
  have hA : ((LD.sentenceScores textOne LD.defaultOpts rHalf).map (·.plagiarism)) = [0] := by
    simp only [LD.sentenceScores, hs, List.length_cons, List.length_nil, hr1,
      List.map_cons, List.map_nil, Function.comp, LD.sentenceScoreAt, LD.plagBase_textOne]
    norm_num [LD.randomVariation, jsRound, rHalf]
  have hB : ((LD.sentenceScores textOne LD.defaultOpts rNine).map (·.plagiarism)) = [2] := by
    simp only [LD.sentenceScores, hs, List.length_cons, List.length_nil, hr1,
      List.map_cons, List.map_nil, Function.comp, LD.sentenceScoreAt, LD.plagBase_textOne]
    norm_num [LD.randomVariation, jsRound, rNine]
  have hsentA : (LD.analyzeTextTraditional textOne LD.defaultOpts rHalf).sentences =
      LD.sentenceScores textOne LD.defaultOpts rHalf := rfl
  have hsentB : (LD.analyzeTextTraditional textOne LD.defaultOpts rNine).sentences =
      LD.sentenceScores textOne LD.defaultOpts rNine := rfl
  refine ⟨by rw [hsentA]; exact hA, by rw [hsentB]; exact hB, ?_, ?_, ?_⟩
  · rw [hsentA, hsentB, hA, hB]
    decide
  · rw [LD.docPlagiarismZ, hA]
    simp [LD.meanRoundZ]
    norm_num [jsRound]
  · rw [LD.docPlagiarismZ, hB]
    simp [LD.meanRoundZ]
    norm_num [jsRound]

/-- The jittered, rounded score moves by at most `2·range` between two
draws in `[0, 1)`. -/
theorem jitterBound {α : Type} [LinearOrderedField α] [FloorRing α]
    (b range : α) {jA jB : α} (hA0 : 0 ≤ jA) (hA1 : jA < 1) (hB0 : 0 ≤ jB) (hB1 : jB < 1)
    (hrange : 0 < range) {d : ℤ} (hd : (d : α) = 2 * range) :
    |jsRound (LD.randomVariation b range jA) - jsRound (LD.randomVariation b range jB)| ≤ d := by
  apply jsRound_diff_le
  rw [hd]
  unfold LD.randomVariation
  refine lt_of_le_of_lt
    (clamp_lipschitz (b + (jA * range * 2 - range)) (b + (jB * range * 2 - range))) ?_
  have heq : (b + (jA * range * 2 - range)) - (b + (jB * range * 2 - range)) =
      (jA - jB) * (2 * range) := by ring
  have hpos : (0 : α) < 2 * range := by linarith
  rw [heq, abs_mul, abs_of_pos hpos]
  have habs : |jA - jB| < 1 := by
    rw [abs_lt]
    constructor <;> linarith
  nlinarith [abs_nonneg (jA - jB)]

/-- C4 (amended): the heuristic analysis is deterministic except for the
bounded random jitter: under any two draw streams the sentence texts,
sources and features agree, and each per-sentence `ai` differs by at most
4 (jitter range 2) and each `plagiarism` by at most 5 (jitter range 2.5). -/
theorem c4_deterministic_up_to_bounded_jitter (text : String) (opts : LD.Opts)
    (rA rB : ℕ → ℚ) (hA : validStream rA) (hB : validStream rB) :
    ((LD.analyzeTextTraditional text opts rA).sentences.map (·.sentence) =
      (LD.analyzeTextTraditional text opts rB).sentences.map (·.sentence)) ∧
    ((LD.analyzeTextTraditional text opts rA).sentences.map (·.source) =
      (LD.analyzeTextTraditional text opts rB).sentences.map (·.source)) ∧
    ((LD.analyzeTextTraditional text opts rA).sentences.map (·.features) =
      (LD.analyzeTextTraditional text opts rB).sentences.map (·.features)) ∧
    (∀ i : ℕ,
      |((LD.analyzeTextTraditional text opts rA).sentences.getD i default).ai -
        ((LD.analyzeTextTraditional text opts rB).sentences.getD i default).ai| ≤ 4 ∧
      |((LD.analyzeTextTraditional text opts rA).sentences.getD i default).plagiarism -
        ((LD.analyzeTextTraditional text opts rB).sentences.getD i default).plagiarism| ≤ 5) := by
  have hsentA : (LD.analyzeTextTraditional text opts rA).sentences =
      LD.sentenceScores text opts rA := rfl
  have hsentB : (LD.analyzeTextTraditional text opts rB).sentences =
      LD.sentenceScores text opts rB := rfl
  have hproj : ∀ (β : Type) (f : LD.SentenceScore → β),
      (fun i => f (LD.sentenceScoreAt text opts rA i)) =
        (fun i => f (LD.sentenceScoreAt text opts rB i)) →
      (LD.sentenceScores text opts rA).map f = (LD.sentenceScores text opts rB).map f := by
    intro β f hf
    unfold LD.sentenceScores
    rw [List.map_map, List.map_map]
    show List.map (fun i => f (LD.sentenceScoreAt text opts rA i)) _ =
      List.map (fun i => f (LD.sentenceScoreAt text opts rB i)) _
    rw [hf]
  refine ⟨?_, ?_, ?_, ?_⟩
  · rw [hsentA, hsentB]
    exact hproj _ (·.sentence) rfl
  · rw [hsentA, hsentB]
    exact hproj _ (·.source) rfl
  · rw [hsentA, hsentB]
    exact hproj _ (·.features) rfl
  intro i
  rw [hsentA, hsentB]
  by_cases hi : i < (LD.sents text).length
  · rw [LD.sentenceScores_getD text opts rA i hi, LD.sentenceScores_getD text opts rB i hi]
    constructor
    · show |jsRound (LD.randomVariation (LD.aiBase text i * 100) 2 ((rA (3*i) : ℝ))) -
        jsRound (LD.randomVariation (LD.aiBase text i * 100) 2 ((rB (3*i) : ℝ)))| ≤ 4
      refine jitterBound _ _ ?_ ?_ ?_ ?_ (by norm_num) (by norm_num)
      · exact_mod_cast (hA (3*i)).1
      · exact_mod_cast (hA (3*i)).2
      · exact_mod_cast (hB (3*i)).1
      · exact_mod_cast (hB (3*i)).2
    · show |jsRound (LD.randomVariation (LD.plagiarismBase text opts i * 100) (5/2) (rA (3*i+1))) -
        jsRound (LD.randomVariation (LD.plagiarismBase text opts i * 100) (5/2) (rB (3*i+1)))| ≤ 5
      refine jitterBound _ _ (hA (3*i+1)).1 (hA (3*i+1)).2 (hB (3*i+1)).1 (hB (3*i+1)).2
        (by norm_num) (by norm_num)
  · have hlenA : (LD.sentenceScores text opts rA).length ≤ i := by
      rw [LD.sentenceScores_length]
      omega
    have hlenB : (LD.sentenceScores text opts rB).length ≤ i := by
      rw [LD.sentenceScores_length]
      omega
    rw [List.getD_eq_default _ _ hlenA, List.getD_eq_default _ _ hlenB]
    norm_num

/-- Witness for the amended C4 at `textOne` with the two concrete streams. -/
theorem c4_deterministic_up_to_bounded_jitter_witness :
    validStream rHalf ∧ validStream rNine ∧
    (∀ i : ℕ,
      |((LD.analyzeTextTraditional textOne LD.defaultOpts rHalf).sentences.getD i default).ai -
        ((LD.analyzeTextTraditional textOne LD.defaultOpts rNine).sentences.getD i default).ai|
          ≤ 4 ∧
      |((LD.analyzeTextTraditional textOne LD.defaultOpts rHalf).sentences.getD i
          default).plagiarism -
        ((LD.analyzeTextTraditional textOne LD.defaultOpts rNine).sentences.getD i
          default).plagiarism| ≤ 5) :=
  ⟨fun _ => by norm_num [rHalf], fun _ => by norm_num [rNine],
   (c4_deterministic_up_to_bounded_jitter textOne LD.defaultOpts rHalf rNine
      (fun _ => by norm_num [rHalf]) (fun _ => by norm_num [rNine])).2.2.2⟩

/-! ## C2: document aggregation -/

theorem LD.gramSets_textTri :
    gramSets textTri defaultOpts = [{"1 2 3 4"}, {"1 2 3 4"}, {"5 6 7 8"}] := by decide

theorem LD.jaccard_dup : jaccard {"1 2 3 4"} {"1 2 3 4"} = 1 := by
  have h1 : (({"1 2 3 4"} : Finset String) ∩ {"1 2 3 4"}).card = 1 := by decide
  have h2 : ({"1 2 3 4"} : Finset String).card = 1 := by decide
  simp [jaccard, h1, h2]

theorem LD.jaccard_dis : jaccard {"1 2 3 4"} {"5 6 7 8"} = 0 := by
  have h1 : (({"1 2 3 4"} : Finset String) ∩ {"5 6 7 8"}).card = 0 := by decide
  have h2 : ({"1 2 3 4"} : Finset String).card = 1 := by decide
  have h3 : ({"5 6 7 8"} : Finset String).card = 1 := by decide
  simp [jaccard, h1, h2, h3]

theorem LD.jaccard_dis' : jaccard {"5 6 7 8"} {"1 2 3 4"} = 0 := by
  have h1 : (({"5 6 7 8"} : Finset String) ∩ {"1 2 3 4"}).card = 0 := by decide
  have h2 : ({"1 2 3 4"} : Finset String).card = 1 := by decide
  have h3 : ({"5 6 7 8"} : Finset String).card = 1 := by decide
  simp [jaccard, h1, h2, h3]

theorem LD.isim_textTri0 : internalSimilarity (gramSets textTri defaultOpts) 0 = 1 := by
  have hr : List.range 3 = [0, 1, 2] := by decide
  rw [gramSets_textTri]
  simp [internalSimilarity, hr, jaccard_dup, jaccard_dis]

theorem LD.isim_textTri1 : internalSimilarity (gramSets textTri defaultOpts) 1 = 1 := by
  have hr : List.range 3 = [0, 1, 2] := by decide
  rw [gramSets_textTri]
  simp [internalSimilarity, hr, jaccard_dup, jaccard_dis]

theorem LD.isim_textTri2 : internalSimilarity (gramSets textTri defaultOpts) 2 = 0 := by
  have hr : List.range 3 = [0, 1, 2] := by decide
  rw [gramSets_textTri]
  simp [internalSimilarity, hr, jaccard_dis']

theorem LD.plagPatterns_digits' : detectPlagiarismPatterns "5 6 7 8." = 0 := by
  have h : plagiarismPatternCounts "5 6 7 8." = [0, 0, 0, 0, 0, 0] := by decide
  simp [detectPlagiarismPatterns, h]

theorem LD.plagBase_textTri0 : plagiarismBase textTri defaultOpts 0 = 1 := by
  have hs : sents textTri = ["1 2 3 4.", "1 2 3 4.", "5 6 7 8."] := by decide
  simp only [plagiarismBase, hs, List.getD_cons_zero, isim_textTri0,
    ebest_empty_corpus, plagPatterns_digits]
  rw [if_neg (fun h => absurd h.1 (by decide))]
  norm_num

theorem LD.plagBase_textTri1 : plagiarismBase textTri defaultOpts 1 = 1 := by
  have hs : sents textTri = ["1 2 3 4.", "1 2 3 4.", "5 6 7 8."] := by decide
  simp only [plagiarismBase, hs, List.getD_cons_zero, List.getD_cons_succ, isim_textTri1,
    ebest_empty_corpus, plagPatterns_digits]
  rw [if_neg (fun h => absurd h.1 (by decide))]
  norm_num

theorem LD.plagBase_textTri2 : plagiarismBase textTri defaultOpts 2 = 0 := by
  have hs : sents textTri = ["1 2 3 4.", "1 2 3 4.", "5 6 7 8."] := by decide
  simp only [plagiarismBase, hs, List.getD_cons_zero, List.getD_cons_succ, isim_textTri2,
    ebest_empty_corpus, plagPatterns_digits']
  rw [if_neg (fun h => absurd h.1 (by decide))]
  norm_num

theorem LD.plagList_textTri :
    (sentenceScores textTri defaultOpts rHalf).map (·.plagiarism) = [26, 26, 0] := by
  have hs : sents textTri = ["1 2 3 4.", "1 2 3 4.", "5 6 7 8."] := by decide
  have hr : List.range 3 = [0, 1, 2] := by decide
  simp only [sentenceScores, hs, List.length_cons, List.length_nil, hr,
    List.map_cons, List.map_nil, Function.comp, sentenceScoreAt,
    plagBase_textTri0, plagBase_textTri1, plagBase_textTri2]
  norm_num [randomVariation, jsRound, rHalf]

/-- C2 (counterexample): on a three-sentence document whose per-sentence
plagiarism scores are `[26, 26, 0]`, the canonical detector's document
`plagiarism` is the rounded mean `17` — not a 90th–95th percentile, which
here is 26 (indeed 17 is not any per-sentence value at all). -/
theorem c2_document_plagiarism_is_mean_not_percentile :
    ((LD.analyzeTextTraditional textTri LD.defaultOpts rHalf).sentences.map (·.plagiarism))
      = [26, 26, 0] ∧
    LD.docPlagiarismZ textTri LD.defaultOpts rHalf = some 17 ∧
    (LD.analyzeTextTraditional textTri LD.defaultOpts rHalf).plagiarism =
      some ((17 : ℤ) : ℝ) ∧
    (17 : ℤ) ∉ [(26 : ℤ), 26, 0] ∧
    specPercentile (95/100) [(26 : ℤ), 26, 0] = 26 ∧
    specPercentile (90/100) [(26 : ℤ), 26, 0] = 26 := by
  have hsent : (LD.analyzeTextTraditional textTri LD.defaultOpts rHalf).sentences =
      LD.sentenceScores textTri LD.defaultOpts rHalf := rfl
  have hdoc : LD.docPlagiarismZ textTri LD.defaultOpts rHalf = some 17 := by
    rw [LD.docPlagiarismZ, LD.plagList_textTri]
    simp [LD.meanRoundZ]
    norm_num [jsRound]
  refine ⟨by rw [hsent]; exact LD.plagList_textTri, hdoc, ?_, by decide, ?_, ?_⟩
  · show (LD.docPlagiarismZ textTri LD.defaultOpts rHalf).map (fun z => (z : ℝ)) =
      some ((17 : ℤ) : ℝ)
    rw [hdoc]
    rfl
  · have hms : ([(26 : ℤ), 26, 0].mergeSort fun a b => a ≤ b) = [0, 26, 26] := by
      simp [List.mergeSort]
    rw [specPercentile, hms]
    norm_num
  · have hms : ([(26 : ℤ), 26, 0].mergeSort fun a b => a ≤ b) = [0, 26, 26] := by
      simp [List.mergeSort]
    rw [specPercentile, hms]
    norm_num

theorem P5.scoresLength (text : String) (opts : Opts) :
    (sentenceScores text opts).length = (sents text).length := by
  simp [sentenceScores]

/-- C2 (amended): document `aiScore` is the rounded mean of per-sentence
`ai` in both detectors; document `plagiarism` is the rounded mean in
`localDetector.ts` and the 95th-percentile order statistic
(`plgSorted[⌊0.95·(n−1)⌋]`) only in the `part_005` variant. -/
theorem c2_aggregation_per_variant (text : String) (optsL : LD.Opts) (optsP : P5.Opts)
    (r : ℕ → ℚ) :
    (LD.sents text ≠ [] →
      (LD.analyzeTextTraditional text optsL r).aiScore =
        some ((jsRound (specMean
          (((LD.analyzeTextTraditional text optsL r).sentences).map (·.ai))) : ℤ) : ℝ) ∧
      (LD.analyzeTextTraditional text optsL r).plagiarism =
        some ((jsRound (specMean
          (((LD.analyzeTextTraditional text optsL r).sentences).map (·.plagiarism))) : ℤ) : ℝ)) ∧
    (P5.sents text ≠ [] →
      (P5.analyzeTextTraditional text optsP).aiScore =
        jsRound (specMean (((P5.analyzeTextTraditional text optsP).sentences).map (·.ai))) ∧
      (P5.analyzeTextTraditional text optsP).plagiarism =
        specPercentile (95/100)
          (((P5.analyzeTextTraditional text optsP).sentences).map (·.plagiarism))) := by
  constructor
  · intro hs
    have hne : LD.sentenceScores text optsL r ≠ [] := by
      intro hc
      have := LD.sentenceScores_length text optsL r
      rw [hc] at this
      exact hs (List.length_eq_zero.mp this.symm)
    have hsent : (LD.analyzeTextTraditional text optsL r).sentences =
        LD.sentenceScores text optsL r := rfl
    constructor
    · show (LD.docAiScoreZ text optsL r).map (fun z => (z : ℝ)) = _
      rw [LD.docAiScoreZ, LD.meanRoundZ_eq_specMean (by simpa using hne)]
      rw [hsent]
      rfl
    · show (LD.docPlagiarismZ text optsL r).map (fun z => (z : ℝ)) = _
      rw [LD.docPlagiarismZ, LD.meanRoundZ_eq_specMean (by simpa using hne)]
      rw [hsent]
      rfl
  · intro hs
    have hne : P5.sentenceScores text optsP ≠ [] := by
      intro hc
      have := P5.scoresLength text optsP
      rw [hc] at this
      exact hs (List.length_eq_zero.mp this.symm)
    have hn : (P5.sentenceScores text optsP).length ≠ 0 := by
      have := List.length_pos.mpr hne
      omega
    have hsent : (P5.analyzeTextTraditional text optsP).sentences =
        P5.sentenceScores text optsP := rfl
    constructor
    · show jsRound ((((P5.sentenceScores text optsP).map (·.ai)).sum : ℚ) /
        (if (P5.sentenceScores text optsP).length = 0 then 1
         else (P5.sentenceScores text optsP).length)) = _
      rw [hsent, if_neg hn, specMean]
      simp [Function.comp_def]
    · show (if (((P5.sentenceScores text optsP).map (·.plagiarism)).mergeSort
          (fun a b => a ≤ b)).length ≠ 0 then
        (((P5.sentenceScores text optsP).map (·.plagiarism)).mergeSort
          (fun a b => a ≤ b)).getD
          (⌊(95/100 : ℚ) * (((P5.sentenceScores text optsP).length : ℚ) - 1)⌋).toNat 0
        else 0) = _
      rw [hsent, if_pos]
      · rw [specPercentile]
        congr 2
        simp
      · simpa [List.length_mergeSort] using hn

/-- Witness for the amended C2 at `textOne`. -/
theorem c2_aggregation_per_variant_witness :
    LD.sents textOne ≠ [] ∧ P5.sents textOne ≠ [] ∧
    (LD.analyzeTextTraditional textOne LD.defaultOpts rHalf).plagiarism =
      some ((jsRound (specMean
        (((LD.analyzeTextTraditional textOne LD.defaultOpts rHalf).sentences).map
          (·.plagiarism))) : ℤ) : ℝ) ∧
    (P5.analyzeTextTraditional textOne P5.defaultOpts).plagiarism =
      specPercentile (95/100)
        (((P5.analyzeTextTraditional textOne P5.defaultOpts).sentences).map (·.plagiarism)) :=
  ⟨by decide, by decide,
   ((c2_aggregation_per_variant textOne LD.defaultOpts P5.defaultOpts rHalf).1 (by decide)).2,
   ((c2_aggregation_per_variant textOne LD.defaultOpts P5.defaultOpts rHalf).2 (by decide)).2⟩

/-! ## C6: internal similarity of duplicated sentences -/

theorem LD.jaccard_nonneg (a b : Finset String) : 0 ≤ jaccard a b := by
  simp only [jaccard]
  split
  · positivity
  · exact le_refl 0

theorem LD.jaccard_le_one (a b : Finset String) : jaccard a b ≤ 1 := by
  simp only [jaccard]
  split
  · rename_i h
    rw [div_le_one (by positivity)]
    have h1 : (a ∩ b).card ≤ a.card := Finset.card_le_card Finset.inter_subset_left
    have h2 : (a ∩ b).card ≤ b.card := Finset.card_le_card Finset.inter_subset_right
    have : (a ∩ b).card ≤ a.card + b.card - (a ∩ b).card := by omega
    exact_mod_cast this
  · norm_num

theorem LD.jaccard_self {g : Finset String} (h : g.card ≠ 0) : jaccard g g = 1 := by
  simp only [jaccard]
  rw [Finset.inter_self]
  have hu : g.card + g.card - g.card = g.card := by omega
  rw [hu, if_pos h]
  rw [div_self (by exact_mod_cast h)]

theorem LD.ngrams_card_ne_zero {ws : List String} {n : ℕ} (h : n ≤ ws.length) :
    (ngrams ws n).card ≠ 0 := by
  unfold ngrams
  rw [if_pos h]
  have hmem : " ".intercalate ((ws.drop 0).take n) ∈
      ((List.range (ws.length - n + 1)).map fun i =>
        " ".intercalate ((ws.drop i).take n)).toFinset := by
    rw [List.mem_toFinset]
    exact List.mem_map.mpr ⟨0, List.mem_range.mpr (by omega), rfl⟩
  exact Finset.card_ne_zero_of_mem hmem

/-- The `internalSimilarity` fold step. -/
def LD.isimStep (gs : List (Finset String)) (i : ℕ) : ℚ → ℕ → ℚ :=
  fun acc j => if j ≠ i then max acc (jaccard (gs.getD i ∅) (gs.getD j ∅)) else acc

theorem LD.isimFold_ge_acc (gs : List (Finset String)) (i : ℕ) :
    ∀ (l : List ℕ) (acc : ℚ), acc ≤ l.foldl (isimStep gs i) acc
  | [], acc => le_refl acc
  | j :: rest, acc => by
    simp only [List.foldl_cons, isimStep]
    split
    · exact le_trans (le_max_left _ _) (isimFold_ge_acc gs i rest _)
    · exact isimFold_ge_acc gs i rest acc

theorem LD.isimFold_ge_elem (gs : List (Finset String)) (i : ℕ) :
    ∀ (l : List ℕ) (acc : ℚ) (j : ℕ), j ∈ l → j ≠ i →
      jaccard (gs.getD i ∅) (gs.getD j ∅) ≤ l.foldl (isimStep gs i) acc
  | k :: rest, acc, j, hmem, hne => by
    simp only [List.foldl_cons]
    rcases List.mem_cons.mp hmem with hjk | hmem'
    · subst hjk
      have hstep : isimStep gs i acc j = max acc (jaccard (gs.getD i ∅) (gs.getD j ∅)) := by
        simp [isimStep, hne]
      rw [hstep]
      exact le_trans (le_max_right _ _) (isimFold_ge_acc gs i rest _)
    · exact isimFold_ge_elem gs i rest _ j hmem' hne

theorem LD.isimFold_le_one (gs : List (Finset String)) (i : ℕ) :
    ∀ (l : List ℕ) (acc : ℚ), acc ≤ 1 → l.foldl (isimStep gs i) acc ≤ 1
  | [], _, h => h
  | j :: rest, acc, h => by
    simp only [List.foldl_cons, isimStep]
    split
    · exact isimFold_le_one gs i rest _ (max_le h (jaccard_le_one _ _))
    · exact isimFold_le_one gs i rest acc h

/-- If some other slot holds the same nonempty gram set, the internal
similarity of slot `k` is exactly 1. -/
theorem LD.isim_eq_one_of_dup (gs : List (Finset String)) (k m : ℕ) (hkm : m ≠ k)
    (hm : m < gs.length) (hset : gs.getD k ∅ = gs.getD m ∅)
    (hcard : (gs.getD k ∅).card ≠ 0) : internalSimilarity gs k = 1 := by
  unfold internalSimilarity
  have hstep : (List.range gs.length).foldl (isimStep gs k) 0 =
      (List.range gs.length).foldl
        (fun acc j => if j ≠ k then max acc (jaccard (gs.getD k ∅) (gs.getD j ∅)) else acc) 0 :=
    rfl
  rw [← hstep]
  apply le_antisymm
  · exact isimFold_le_one gs k _ 0 (by norm_num)
  · have h1 : jaccard (gs.getD k ∅) (gs.getD m ∅) = 1 := by
      rw [← hset]
      exact jaccard_self hcard
    rw [← h1]
    exact isimFold_ge_elem gs k _ 0 m (List.mem_range.mpr hm) hkm

theorem LD.gramSets_length (text : String) (opts : Opts) :
    (gramSets text opts).length = (sents text).length := by
  simp [gramSets, sentWords]

theorem LD.sentWords_getD (text : String) (i : ℕ) (h : i < (sents text).length) :
    (sentWords text).getD i [] = words ((sents text).getD i "") := by
  unfold sentWords
  exact getD_map_of_lt words (sents text) i h "" []

theorem LD.gramSets_getD (text : String) (opts : Opts) (i : ℕ)
    (h : i < (sents text).length) :
    (gramSets text opts).getD i ∅ = ngrams ((sentWords text).getD i []) (nOf opts) := by
  unfold gramSets
  have hlen : i < (sentWords text).length := by
    simpa [sentWords] using h
  exact getD_map_of_lt _ (sentWords text) i hlen [] ∅

/-- C6: if two distinct sentence slots of one document hold
character-for-character identical sentences with at least `n` words each
(`n` the configured n-gram arity), both report an internal similarity of
exactly 1 — in particular at least 0.99. -/
theorem c6_identical_sentences_max_similarity (text : String) (opts : LD.Opts) (i j : ℕ)
    (hij : i ≠ j) (hi : i < (LD.sents text).length) (hj : j < (LD.sents text).length)
    (heq : (LD.sents text).getD i "" = (LD.sents text).getD j "")
    (hn : LD.nOf opts ≤ ((LD.sentWords text).getD i []).length) :
    LD.internalSimilarity (LD.gramSets text opts) i = 1 ∧
    LD.internalSimilarity (LD.gramSets text opts) j = 1 ∧
    (99/100 : ℚ) ≤ LD.internalSimilarity (LD.gramSets text opts) i ∧
    (99/100 : ℚ) ≤ LD.internalSimilarity (LD.gramSets text opts) j := by
  have hwords : (LD.sentWords text).getD i [] = (LD.sentWords text).getD j [] := by
    rw [LD.sentWords_getD text i hi, LD.sentWords_getD text j hj, heq]
  have hsets : (LD.gramSets text opts).getD i ∅ = (LD.gramSets text opts).getD j ∅ := by
    rw [LD.gramSets_getD text opts i hi, LD.gramSets_getD text opts j hj, hwords]
  have hcardi : ((LD.gramSets text opts).getD i ∅).card ≠ 0 := by
    rw [LD.gramSets_getD text opts i hi]
    exact LD.ngrams_card_ne_zero hn
  have hcardj : ((LD.gramSets text opts).getD j ∅).card ≠ 0 := by
    rw [← hsets]
    exact hcardi
  have hleni : i < (LD.gramSets text opts).length := by
    rw [LD.gramSets_length]
    exact hi
  have hlenj : j < (LD.gramSets text opts).length := by
    rw [LD.gramSets_length]
    exact hj
  have h1 : LD.internalSimilarity (LD.gramSets text opts) i = 1 :=
    LD.isim_eq_one_of_dup _ i j (fun h => hij h.symm) hlenj hsets hcardi
  have h2 : LD.internalSimilarity (LD.gramSets text opts) j = 1 :=
    LD.isim_eq_one_of_dup _ j i hij hleni hsets.symm hcardj
  exact ⟨h1, h2, by rw [h1]; norm_num, by rw [h2]; norm_num⟩

/-- Witness for C6 on the duplicated-sentence document `textDup`. -/
theorem c6_identical_sentences_max_similarity_witness :
    (0 : ℕ) ≠ 1 ∧ 0 < (LD.sents textDup).length ∧ 1 < (LD.sents textDup).length ∧
    (LD.sents textDup).getD 0 "" = (LD.sents textDup).getD 1 "" ∧
    LD.nOf LD.defaultOpts ≤ ((LD.sentWords textDup).getD 0 []).length ∧
    LD.internalSimilarity (LD.gramSets textDup LD.defaultOpts) 0 = 1 :=
  ⟨by decide, by decide, by decide, by decide, by decide,
   (c6_identical_sentences_max_similarity textDup LD.defaultOpts 0 1 (by decide) (by decide)
      (by decide) (by decide) (by decide)).1⟩

/-! ## C7: source disclosure -/

theorem P5.scoresGetD (text : String) (opts : Opts) (i : ℕ)
    (h : i < (sents text).length) :
    (sentenceScores text opts).getD i default = sentenceScoreAt text opts i := by
  unfold sentenceScores
  have hlen : i < (List.range (sents text).length).length := by simpa using h
  rw [getD_map_of_lt _ _ i hlen 0]
  congr 1
  rw [List.getD_eq_getElem?_getD, List.getElem?_range h]
  rfl

/-- C7: a sentence's `source` is populated only when its best external
Jaccard similarity exceeds the disclosure threshold — strictly above `0.25`
in `localDetector.ts` and at least `0.3` (hence above `0.25`) in the
`part_005` variant — and an empty reference corpus never populates any
`source`. -/
theorem c7_source_needs_disclosure_threshold :
    (∀ (text : String) (opts : LD.Opts) (r : ℕ → ℚ) (i : ℕ),
      ((LD.analyzeTextTraditional text opts r).sentences.getD i default).source ≠ none →
        1/4 < (LD.externalBest ((LD.gramSets text opts).getD i ∅) (LD.corpusSets opts)).1) ∧
    (∀ (text : String) (opts : LD.Opts) (r : ℕ → ℚ) (i : ℕ), opts.corpus.getD [] = [] →
      ((LD.analyzeTextTraditional text opts r).sentences.getD i default).source = none) ∧
    (∀ (text : String) (opts : P5.Opts) (i : ℕ),
      ((P5.analyzeTextTraditional text opts).sentences.getD i default).source ≠ none →
        3/10 ≤ (P5.bestExt text opts i).1 ∧ 1/4 < (P5.bestExt text opts i).1) ∧
    (∀ (text : String) (opts : P5.Opts) (i : ℕ), opts.corpus.getD [] = [] →
      ((P5.analyzeTextTraditional text opts).sentences.getD i default).source = none) := by
  have hLD : ∀ (text : String) (opts : LD.Opts) (r : ℕ → ℚ),
      (LD.analyzeTextTraditional text opts r).sentences = LD.sentenceScores text opts r :=
    fun _ _ _ => rfl
  have hP5 : ∀ (text : String) (opts : P5.Opts),
      (P5.analyzeTextTraditional text opts).sentences = P5.sentenceScores text opts :=
    fun _ _ => rfl
  refine ⟨?_, ?_, ?_, ?_⟩
  · intro text opts r i hsrc
    rw [hLD] at hsrc
    by_cases hi : i < (LD.sents text).length
    · rw [LD.sentenceScores_getD text opts r i hi] at hsrc
      simp only [LD.sentenceScoreAt] at hsrc
      by_cases hc :
          (LD.externalBest ((LD.gramSets text opts).getD i ∅) (LD.corpusSets opts)).1 > 1/4
      · exact hc
      · rw [if_neg hc] at hsrc
        exact absurd rfl hsrc
    · rw [List.getD_eq_default] at hsrc
      · exact absurd rfl hsrc
      · rw [LD.sentenceScores_length]
        omega
  · intro text opts r i hcorp
    have hcs : LD.corpusSets opts = [] := by
      simp [LD.corpusSets, hcorp]
    have hbest : ∀ g : Finset String, LD.externalBest g (LD.corpusSets opts) = (0, none) := by
      intro g
      rw [hcs]
      rfl
    rw [hLD]
    by_cases hi : i < (LD.sents text).length
    · rw [LD.sentenceScores_getD text opts r i hi]
      simp only [LD.sentenceScoreAt]
      rw [hbest]
      norm_num
    · rw [List.getD_eq_default]
      · rfl
      · rw [LD.sentenceScores_length]
        omega
  · intro text opts i hsrc
    rw [hP5] at hsrc
    by_cases hi : i < (P5.sents text).length
    · rw [P5.scoresGetD text opts i hi] at hsrc
      simp only [P5.sentenceScoreAt] at hsrc
      by_cases hc : (P5.bestExt text opts i).1 ≥ 3/10
      · constructor
        · exact hc
        · linarith
      · rw [if_neg hc] at hsrc
        exact absurd rfl hsrc
    · rw [List.getD_eq_default] at hsrc
      · exact absurd rfl hsrc
      · rw [P5.scoresLength]
        omega
  · intro text opts i hcorp
    have hcs : P5.corpusSets opts = [] := by
      simp [P5.corpusSets, hcorp]
    have hbest : P5.bestExt text opts i = (0, none) := by
      unfold P5.bestExt
      rw [hcs]
      rfl
    rw [hP5]
    by_cases hi : i < (P5.sents text).length
    · rw [P5.scoresGetD text opts i hi]
      simp only [P5.sentenceScoreAt]
      rw [hbest]
      norm_num
    · rw [List.getD_eq_default]
      · rfl
      · rw [P5.scoresLength]
        omega

theorem LD.gramSets_textFive :
    gramSets textFive optsFive = [({"1 2 3 4", "2 3 4 5"} : Finset String)] := by decide

theorem LD.gramSets_textFive_getD :
    (gramSets textFive optsFive).getD 0 ∅ = ({"1 2 3 4", "2 3 4 5"} : Finset String) := by
  decide

theorem LD.corpusSets_optsFive :
    corpusSets optsFive = [("src", ({"1 2 3 4", "2 3 4 5"} : Finset String))] := by decide

theorem LD.externalBest_textFive :
    externalBest ((gramSets textFive optsFive).getD 0 ∅) (corpusSets optsFive) =
      (1, some "src") := by
  rw [LD.gramSets_textFive_getD, LD.corpusSets_optsFive]
  simp only [externalBest, List.foldl_cons, List.foldl_nil]
  rw [jaccard_self (by decide)]
  norm_num

theorem LD.source_textFive :
    ((analyzeTextTraditional textFive optsFive rHalf).sentences.getD 0 default).source =
      some "src" := by
  have hsent : (analyzeTextTraditional textFive optsFive rHalf).sentences =
      sentenceScores textFive optsFive rHalf := rfl
  rw [hsent, sentenceScores_getD textFive optsFive rHalf 0 (by decide)]
  simp only [sentenceScoreAt]
  rw [externalBest_textFive]
  norm_num

theorem P5.jaccardReflOne {g : Finset String} (h : g.card ≠ 0) : jaccard g g = 1 := by
  simp only [jaccard]
  rw [Finset.inter_self, Finset.union_self, if_neg h]
  rw [div_self (by exact_mod_cast h)]

theorem P5.gramsFive_getD :
    (gramSets textFive optsFiveP5).getD 0 ∅ = ({"1 2 3 4 5"} : Finset String) := by decide

theorem P5.corpusSets_optsFiveP5 :
    corpusSets optsFiveP5 = [("src", ({"1 2 3 4 5"} : Finset String))] := by decide

theorem P5.bestExt_textFive : bestExt textFive optsFiveP5 0 = (1, some "src") := by
  unfold bestExt
  rw [P5.gramsFive_getD, P5.corpusSets_optsFiveP5]
  simp only [bestExtLoop]
  rw [P5.jaccardReflOne (by decide)]
  norm_num

theorem P5.sourceFive :
    ((analyzeTextTraditional textFive optsFiveP5).sentences.getD 0 default).source =
      some "src" := by
  have hsent : (analyzeTextTraditional textFive optsFiveP5).sentences =
      sentenceScores textFive optsFiveP5 := rfl
  rw [hsent, P5.scoresGetD textFive optsFiveP5 0 (by decide)]
  simp only [sentenceScoreAt]
  rw [P5.bestExt_textFive]
  norm_num

/-- Witness for C7: on `textFive` against `corpusFive` both detectors
populate `source = "src"`, and the theorem yields the threshold facts; an
absent corpus is covered at `textOne`. -/
theorem c7_source_needs_disclosure_threshold_witness :
    (((LD.analyzeTextTraditional textFive optsFive rHalf).sentences.getD 0 default).source ≠
        none ∧
      1/4 < (LD.externalBest ((LD.gramSets textFive optsFive).getD 0 ∅)
        (LD.corpusSets optsFive)).1) ∧
    ((LD.defaultOpts.corpus.getD [] = []) ∧
      ((LD.analyzeTextTraditional textOne LD.defaultOpts rHalf).sentences.getD 0
        default).source = none) ∧
    (((P5.analyzeTextTraditional textFive optsFiveP5).sentences.getD 0 default).source ≠
        none ∧
      3/10 ≤ (P5.bestExt textFive optsFiveP5 0).1) ∧
    ((P5.defaultOpts.corpus.getD [] = []) ∧
      ((P5.analyzeTextTraditional textOne P5.defaultOpts).sentences.getD 0 default).source =
        none) :=
  ⟨⟨by rw [LD.source_textFive]; exact Option.noConfusion,
    (c7_source_needs_disclosure_threshold).1 textFive optsFive rHalf 0
      (by rw [LD.source_textFive]; exact Option.noConfusion)⟩,
   ⟨rfl, (c7_source_needs_disclosure_threshold).2.1 textOne LD.defaultOpts rHalf 0 rfl⟩,
   ⟨by rw [P5.sourceFive]; exact Option.noConfusion,
    ((c7_source_needs_disclosure_threshold).2.2.1 textFive optsFiveP5 0
      (by rw [P5.sourceFive]; exact Option.noConfusion)).1⟩,
   ⟨rfl, (c7_source_needs_disclosure_threshold).2.2.2 textOne P5.defaultOpts 0 rfl⟩⟩

/-- C8: when the document-level `plagiarism` is 0, the selector emits no
plagiarism highlight terms, whatever the per-sentence fallback stages would
have produced. -/
theorem c8_zero_plagiarism_no_highlight_terms (sentences : List LD.SentenceScore) :
    RP.plgTerms sentences (some 0) = [] ∧
    RP.groups sentences (some 0) =
      [(RP.aiTerms sentences, "mark-ai"), (([] : List String), "mark-plagiarism")] := by
  have h : RP.docPlagiarismLE0 (some 0) := le_refl (0 : ℝ)
  refine ⟨?_, ?_⟩
  · rw [RP.plgTerms, if_pos h]
  · rw [RP.groups, RP.plgTerms, if_pos h]

/-! ## C9: non-overlap of highlight matches -/

namespace HT

/-- The scan invariant: every collected match is a nonempty range fully
marked in `used`, and collected matches are pairwise non-overlapping. -/
def Inv (used : Finset ℕ) (acc : List HMatch) : Prop :=
  (∀ m ∈ acc, m.start < m.stop ∧ ∀ k, m.start ≤ k → k < m.stop → k ∈ used) ∧
  acc.Pairwise noOverlap

theorem noOverlap_symm : Symmetric noOverlap := by
  intro m1 m2 h
  exact h.symm

theorem inv_nil : Inv ∅ [] := ⟨fun m hm => absurd hm (List.not_mem_nil m), List.Pairwise.nil⟩

/-- Appending a fresh (unmarked) nonempty range preserves the invariant. -/
theorem inv_append {used : Finset ℕ} {acc : List HMatch} (hinv : Inv used acc)
    (s len : ℕ) (cls : Option String) (hlen : 0 < len)
    (hfresh : ∀ k ∈ List.range' s len, k ∉ used) :
    Inv (used ∪ (List.range' s len).toFinset) (acc ++ [⟨s, s + len, cls⟩]) := by
  constructor
  · intro m hm
    rcases List.mem_append.mp hm with hm' | hm'
    · obtain ⟨h1, h2⟩ := hinv.1 m hm'
      exact ⟨h1, fun k hk1 hk2 => Finset.mem_union_left _ (h2 k hk1 hk2)⟩
    · rw [List.mem_singleton] at hm'
      subst hm'
      refine ⟨by dsimp only; omega, fun k hk1 hk2 => Finset.mem_union_right _ ?_⟩
      rw [List.mem_toFinset, List.mem_range'_1]
      dsimp only at hk1 hk2
      exact ⟨hk1, hk2⟩
  · rw [List.pairwise_append]
    refine ⟨hinv.2, List.pairwise_singleton _ _, ?_⟩
    intro a ha b hb
    rw [List.mem_singleton] at hb
    subst hb
    obtain ⟨hlt, hmarked⟩ := hinv.1 a ha
    by_contra hov
    rw [noOverlap] at hov
    push_neg at hov
    obtain ⟨h1, h2⟩ := hov
    dsimp only at h1 h2
    have hk : max a.start s ∈ used := hmarked (max a.start s) (le_max_left _ _) (by omega)
    have hk' : max a.start s ∈ List.range' s len := by
      rw [List.mem_range'_1]
      exact ⟨le_max_right _ _, by omega⟩
    exact hfresh _ hk' hk

/-- One token scan preserves the invariant. -/
theorem scanTok_inv (term : List Char) (cls : Option String) (text : List Char)
    (hterm : term ≠ []) :
    ∀ (fuel pos : ℕ) (used : Finset ℕ) (acc : List HMatch), Inv used acc →
      Inv (scanTok term cls text fuel pos used acc).1
        (scanTok term cls text fuel pos used acc).2 := by
  intro fuel
  induction fuel with
  | zero => intro pos used acc hinv; exact hinv
  | succ n ih =>
    intro pos used acc hinv
    rw [scanTok]
    cases hfind : findCI term (text.drop pos) with
    | none => exact hinv
    | some off =>
      simp only []
      split
      · exact ih _ used acc hinv
      · rename_i hovl
        refine ih _ _ _ (inv_append hinv (pos + off) term.length cls
          (List.length_pos.mpr hterm) ?_)
        intro k hk hkused
        apply hovl
        rw [List.any_eq_true]
        exact ⟨k, hk, by simpa using hkused⟩

/-- The shared-`used` fold over all tokens preserves the invariant. -/
theorem collect_inv (text : List Char) :
    ∀ (toks : List Tok) (st : Finset ℕ × List HMatch),
      (∀ t ∈ toks, t.term.toList ≠ []) → Inv st.1 st.2 →
      Inv (toks.foldl
        (fun st tok => scanTok tok.term.toList tok.cls text (text.length + 1) 0 st.1 st.2)
        st).1
        (toks.foldl
          (fun st tok => scanTok tok.term.toList tok.cls text (text.length + 1) 0 st.1 st.2)
          st).2
  | [], st, _, hinv => hinv
  | tok :: rest, st, hne, hinv => by
    rw [List.foldl_cons]
    refine collect_inv text rest _ (fun t ht => hne t (List.mem_cons_of_mem tok ht)) ?_
    exact scanTok_inv tok.term.toList tok.cls text (hne tok (List.mem_cons_self tok rest))
      (text.length + 1) 0 st.1 st.2 hinv

theorem toList_ne_nil_of_ne_empty {s : String} (h : s ≠ "") : s.toList ≠ [] := by
  intro hc
  apply h
  cases s with
  | mk data =>
    simp only [String.toList, String.data] at hc
    subst hc
    rfl

/-- Every token built by `buildTokens` has a nonempty term. -/
theorem buildTokens_ne (highlights : List String) (className : Option String)
    (groups : List (List String × String)) :
    ∀ t ∈ buildTokens highlights className groups, t.term.toList ≠ [] := by
  intro t ht
  unfold buildTokens at ht
  rw [(List.mergeSort_perm _ _).mem_iff] at ht
  rcases List.mem_append.mp ht with hb | hg
  · obtain ⟨x, hx, rfl⟩ := List.mem_map.mp hb
    exact toList_ne_nil_of_ne_empty (by simpa using (List.mem_filter.mp hx).2)
  · obtain ⟨g, _, hg'⟩ := List.mem_flatMap.mp hg
    obtain ⟨x, hx, rfl⟩ := List.mem_map.mp hg'
    exact toList_ne_nil_of_ne_empty (by simpa using (List.mem_filter.mp hx).2)

end HT

/-- C9: the highlighter's emitted match ranges are pairwise
non-overlapping for every text and every set of highlight terms and
groups: longer terms are matched first, and a range already consumed is
never matched again. -/
theorem c9_highlight_ranges_pairwise_disjoint (text : String) (highlights : List String)
    (className : Option String) (groups : List (List String × String)) :
    (HT.matchList text highlights className groups).Pairwise HT.noOverlap := by
  simp only [HT.matchList]
  split
  · exact List.Pairwise.nil
  · have hinv := HT.collect_inv text.toList (HT.buildTokens highlights className groups)
      (∅, []) (HT.buildTokens_ne highlights className groups) HT.inv_nil
    have hpair : (HT.collect text.toList
        (HT.buildTokens highlights className groups)).2.Pairwise HT.noOverlap := hinv.2
    exact ((List.mergeSort_perm _ _).pairwise_iff (fun h => HT.noOverlap_symm h)).mpr hpair
